import Mathlib

/-!
# Verification of the guidelight client library

A shallow embedding of the `guidelight` Python package (`guidelight/url.py`,
`guidelight/client.py`, `guidelight/exceptions.py`) together with theorems
checking the natural-language specification against it.

Python strings are modelled as lists of characters (`PyStr`), JSON values as
an inductive type, exceptions as an explicit error class hierarchy, and the
HTTP transport as a function from requests to responses.  Stateful client
code is modelled by explicit state passing; every function also returns the
list of transport requests it issued, in order.
-/

/-- Python strings are modelled as lists of characters. -/
abbrev PyStr := List Char

/-- Coerce a Lean string literal to the `PyStr` model. -/
def py (s : String) : PyStr := s.data

/-- Model of `s.split(sep, 1)` / `s.find(sep)`: split at the first occurrence of a
character, returning `none` when the character does not occur. -/
def splitFirst (sep : Char) : PyStr → Option (PyStr × PyStr)
  | [] => none
  | c :: rest =>
    if c = sep then some ([], rest)
    else (splitFirst sep rest).map (fun p => (c :: p.1, p.2))

/-- Python `s.split(sep)`: split at every occurrence of `sep`, keeping empty
pieces (so the result is always nonempty). -/
def splitAll (sep : Char) : PyStr → List PyStr
  | [] => [[]]
  | c :: rest =>
    let r := splitAll sep rest
    if c = sep then [] :: r
    else
      match r with
      | h :: t => (c :: h) :: t
      | [] => [[c]]

/-- Python `s.startswith("/")`. -/
def startsSlash (l : PyStr) : Bool := l.head? == some '/'

/-- Python `s.endswith("/")`. -/
def endsSlash (l : PyStr) : Bool := l.getLast? == some '/'

/-- Python `suffix in`-style `s.endswith(suffix)`. -/
def pyEndsWith (suffix l : PyStr) : Bool := suffix.isSuffixOf l

/-- Python `needle in haystack` for strings (substring containment). -/
def pyInfixOf (n : PyStr) : PyStr → Bool
  | [] => n.isEmpty
  | c :: t => List.isPrefixOf n (c :: t) || pyInfixOf n t

/-- Python `s.lower()` (ASCII). -/
def pyToLower (l : PyStr) : PyStr := l.map Char.toLower

/-- JSON values, as decoded by `json` / `requests.Response.json()`. -/
inductive Json where
  | null
  | bool (b : Bool)
  | num (n : Int)
  | str (s : PyStr)
  | arr (elems : List Json)
  | obj (fields : List (PyStr × Json))

/-- Python truthiness `bool(x)` of a decoded JSON value. -/
def jsonTruthy : Json → Bool
  | .null => false
  | .bool b => b
  | .num n => n != 0
  | .str s => !s.isEmpty
  | .arr l => !l.isEmpty
  | .obj l => !l.isEmpty

/-- Python `str(x)` / f-string formatting of a decoded JSON value.  Only the
scalar cases are exercised by the client; composites get a fixed rendering. -/
def pyJsonStr : Json → PyStr
  | .null => py "None"
  | .bool true => py "True"
  | .bool false => py "False"
  | .num n => (toString n).data
  | .str s => s
  | .arr _ => py "[...]"
  | .obj _ => py "{...}"

/-- Python `str(n)` for a non-negative integer. -/
def natToStr (n : Nat) : PyStr := (toString n).data

/-- The exception classes that can escape the client: the `guidelight`
hierarchy from `exceptions.py` plus the Python builtins it touches. -/
inductive ExcClass where
  | Exception
  | GuidelightError
  | EndeavorError
  | ServerError
  | ClientError
  | AuthenticationError
  | NotFound
  | ValidationError
  | ReadOnlyEndpoint
  | ValueError
  | JSONDecodeError
  | KeyError
  | TypeError
deriving DecidableEq

/-- Direct superclass of each exception class, as declared in
`exceptions.py` (and in the Python builtins for `ValueError`,
`json.JSONDecodeError`, `KeyError` and `TypeError`). -/
def ExcClass.superclass : ExcClass → Option ExcClass
  | .Exception => none
  | .GuidelightError => some .Exception
  | .EndeavorError => some .GuidelightError
  | .ServerError => some .EndeavorError
  | .ClientError => some .EndeavorError
  | .AuthenticationError => some .ClientError
  | .NotFound => some .ClientError
  | .ValidationError => some .ClientError
  | .ReadOnlyEndpoint => some .EndeavorError
  | .ValueError => some .Exception
  | .JSONDecodeError => some .ValueError
  | .KeyError => some .Exception
  | .TypeError => some .Exception

/-- The superclass chain of a class, followed for at most `fuel` steps
(the hierarchy has depth at most 5, so fuel 12 is exhaustive). -/
def ExcClass.ancestorsAux : ExcClass → Nat → List ExcClass
  | c, 0 => [c]
  | c, fuel + 1 =>
    c :: (match c.superclass with
          | none => []
          | some p => p.ancestorsAux fuel)

/-- All ancestors of an exception class, itself included. -/
def ExcClass.ancestors (c : ExcClass) : List ExcClass := c.ancestorsAux 12

/-- Python `issubclass(a, b)` restricted to the modelled classes. -/
def ExcClass.isSubclassOf (a b : ExcClass) : Bool := b ∈ a.ancestors

/-- A raised Python exception: its class and the argument it was raised
with (the guidelight code raises exceptions with a single argument, which
is a string except where a decoded JSON error value is passed through). -/
structure Exc where
  cls : ExcClass
  msg : Json

/-!
## URL (`guidelight/url.py`)

`URL.parse` delegates to `urllib.parse.urlparse`, `__str__` to
`urllib.parse.urlunparse`, `resolve` to `posixpath.join` plus
`urllib.parse.parse_qs` / `urllib.parse.urlencode`.  Those collaborators are
embedded here following CPython (3.11+) `urllib/parse.py` and
`posixpath.py`, with two documented restrictions: percent-escaping
(`quote_plus` / `unquote`) is modelled only by its `+`/space substitution
(URLs whose components need `%`-escapes are outside the model), and
`urlsplit`'s removal of embedded tab/newline characters and its bracketed
IPv6 host check are not modelled (URLs containing those characters or
brackets are outside the model).
-/

/-- The six fields of the repository's `URL` object, in `__slots__` order. -/
structure URL where
  scheme : PyStr
  netloc : PyStr
  path : PyStr
  params : PyStr
  query : PyStr
  fragment : PyStr
deriving DecidableEq

/-- Model of `scheme_chars` from `urllib.parse`: letters, digits and `+-.`. -/
def isSchemeChar (c : Char) : Bool :=
  c.isAlpha || c.isDigit || c == '+' || c == '-' || c == '.'

/-- Model of `urllib.parse._splitnetloc`: the authority extends to the first
`/`, `?` or `#`. -/
def splitnetloc (l : PyStr) : PyStr × PyStr :=
  (l.takeWhile (fun c => !(c == '/' || c == '?' || c == '#')),
   l.dropWhile (fun c => !(c == '/' || c == '?' || c == '#')))

/-- Model of `urllib.parse.urlsplit(url, scheme, allow_fragments)`, returning
`(scheme, netloc, path, query, fragment)`. -/
def urlsplitPy (url schemeArg : PyStr) (allow_fragments : Bool) :
    PyStr × PyStr × PyStr × PyStr × PyStr :=
  let (scheme, rest) :=
    match splitFirst ':' url with
    | some p =>
      if !p.1.isEmpty && (p.1.headD ' ').isAlpha && p.1.all isSchemeChar then
        (pyToLower p.1, p.2)
      else (schemeArg, url)
    | none => (schemeArg, url)
  let (netloc, rest) :=
    if List.isPrefixOf (py "//") rest then splitnetloc (rest.drop 2)
    else ([], rest)
  let (rest, fragment) :=
    if allow_fragments then
      match splitFirst '#' rest with
      | some p => (p.1, p.2)
      | none => (rest, [])
    else (rest, [])
  let (path, query) :=
    match splitFirst '?' rest with
    | some p => (p.1, p.2)
    | none => (rest, [])
  (scheme, netloc, path, query, fragment)

/-- The schemes for which `urlparse` splits `;params` off the path. -/
def uses_params : List PyStr :=
  [[], py "ftp", py "hdl", py "prospero", py "http", py "imap", py "https",
   py "shttp", py "rtsp", py "rtspu", py "sip", py "sips", py "mms",
   py "sftp", py "tel"]

/-- Split the string at its last `/`, when one occurs: the result is
`(before, after)` with `after` free of `/`. -/
def splitLastSlash : PyStr → Option (PyStr × PyStr)
  | [] => none
  | c :: rest =>
    match splitLastSlash rest with
    | some p => some (c :: p.1, p.2)
    | none => if c = '/' then some ([], rest) else none

/-- Model of `urllib.parse._splitparams`: split `;params` out of the last path
segment (searching from the last `/` when the path has one). -/
def splitparamsPy (url : PyStr) : PyStr × PyStr :=
  match splitLastSlash url with
  | some p =>
    match splitFirst ';' p.2 with
    | some q => (p.1 ++ '/' :: q.1, q.2)
    | none => (url, [])
  | none =>
    match splitFirst ';' url with
    | some q => (q.1, q.2)
    | none => (url, [])

/-- Model of `urllib.parse.urlparse(url, scheme, allow_fragments)`. -/
def urlparsePy (url schemeArg : PyStr) (allow_fragments : Bool) : URL :=
  let (scheme, netloc, path, query, fragment) :=
    urlsplitPy url schemeArg allow_fragments
  let (path, params) :=
    if uses_params.contains scheme && path.contains ';' then splitparamsPy path
    else (path, [])
  ⟨scheme, netloc, path, params, query, fragment⟩

/-- Model of `URL.parse(url)` with its default arguments `scheme=""`,
`allow_fragments=True`. -/
def URL.parse (url : PyStr) : URL := urlparsePy url [] true

/-- Model of `urllib.parse.urlunsplit` composed with the `;params` re-attachment of
`urllib.parse.urlunparse`; this is the repository's `URL.__str__`. -/
def urlunparsePy (u : URL) : PyStr :=
  let url := if !u.params.isEmpty then u.path ++ ';' :: u.params else u.path
  let url :=
    if !u.netloc.isEmpty || (!url.isEmpty && List.isPrefixOf (py "//") url) then
      '/' :: '/' :: u.netloc ++
        (if !url.isEmpty && !startsSlash url then '/' :: url else url)
    else url
  let url := if !u.scheme.isEmpty then u.scheme ++ ':' :: url else url
  let url := if !u.query.isEmpty then url ++ '?' :: u.query else url
  if !u.fragment.isEmpty then url ++ '#' :: u.fragment else url

/-- A URL string assembled from components in conventional syntax
(`scheme://authority/path?query#fragment`). -/
def renderURL (scheme netloc path query fragment : PyStr) : PyStr :=
  scheme ++ ':' :: '/' :: '/' :: netloc ++ path ++
    (if query.isEmpty then [] else '?' :: query) ++
    (if fragment.isEmpty then [] else '#' :: fragment)

/-- Valid URL strings for the round-trip property: assembled by `renderURL`
from a nonempty lowercase scheme, a nonempty authority free of `/?#`, an
absolute (or empty) path free of `?#;`, a query free of `#` and an
arbitrary fragment.  The `;` exclusion keeps `urlparse`'s params splitting
inert, matching the library's own use of URLs. -/
def IsValidURLString (s : PyStr) : Prop :=
  ∃ scheme netloc path query fragment,
    s = renderURL scheme netloc path query fragment ∧
    scheme ≠ [] ∧ (scheme.headD ' ').isAlpha = true ∧
    scheme.all isSchemeChar = true ∧ pyToLower scheme = scheme ∧
    netloc ≠ [] ∧ (∀ c ∈ netloc, c ≠ '/' ∧ c ≠ '?' ∧ c ≠ '#') ∧
    (path = [] ∨ startsSlash path = true) ∧
    (∀ c ∈ path, c ≠ '?' ∧ c ≠ '#' ∧ c ≠ ';') ∧
    (∀ c ∈ query, c ≠ '#')

/-- One step of `posixpath.join`: absolute components restart the path,
otherwise a `/` separator is inserted unless one is already there. -/
def posixJoin1 (path b : PyStr) : PyStr :=
  if startsSlash b then b
  else if path.isEmpty || endsSlash path then path ++ b
  else path ++ '/' :: b

/-- Model of `posixpath.join(a, *p)`. -/
def posixJoin (a : PyStr) (p : List PyStr) : PyStr := p.foldl posixJoin1 a

/-- The last absolute component of a segment list, with the components
following it; `none` when no component is absolute.  Used to state what
`resolve` does when a component has a leading path separator. -/
def lastAbsSplit : List PyStr → Option (PyStr × List PyStr)
  | [] => none
  | b :: rest =>
    match lastAbsSplit rest with
    | some p => some p
    | none => if startsSlash b then some (b, rest) else none

/-- Model of `str.replace('+', ' ')` composed with `urllib.parse.unquote`
(percent-escapes not modelled). -/
def unquotePlus (s : PyStr) : PyStr := s.map (fun c => if c = '+' then ' ' else c)

/-- Model of `urllib.parse.quote_plus` (percent-escapes not modelled). -/
def quotePlus (s : PyStr) : PyStr := s.map (fun c => if c = ' ' then '+' else c)

/-- Model of `urllib.parse.parse_qsl(qs)` with default arguments: blank values and
pairs without `=` are dropped. -/
def parse_qsl (qs : PyStr) : List (PyStr × PyStr) :=
  (splitAll '&' qs).filterMap (fun nv =>
    if nv.isEmpty then none
    else
      match splitFirst '=' nv with
      | none => none
      | some p =>
        if p.2.isEmpty then none
        else some (unquotePlus p.1, unquotePlus p.2))

/-- The grouping step of `urllib.parse.parse_qs`: a repeated key appends to
the value list of its first occurrence, a new key is appended at the end. -/
def qsGroup (d : List (PyStr × List PyStr)) (kv : PyStr × PyStr) :
    List (PyStr × List PyStr) :=
  if d.any (fun p => p.1 == kv.1) then
    d.map (fun p => if p.1 == kv.1 then (p.1, p.2 ++ [kv.2]) else p)
  else d ++ [(kv.1, [kv.2])]

/-- Model of `urllib.parse.parse_qs(qs)`: a mapping from keys to value lists, in
first-occurrence order (Python dicts preserve insertion order). -/
def parse_qs (qs : PyStr) : List (PyStr × List PyStr) :=
  (parse_qsl qs).foldl qsGroup []

/-- Model of `URL.parse_query`. -/
def URL.parse_query (u : URL) : List (PyStr × List PyStr) :=
  if !u.query.isEmpty then parse_qs u.query else []

/-- A value in the query dict passed to `urlencode`: value lists come from
`parse_qs`, single strings from the caller-supplied query mapping. -/
inductive QVal where
  | one (s : PyStr)
  | many (l : List PyStr)

/-- Python `dict.update` on an insertion-ordered association list: a key
already present is overridden in place, a new key is appended. -/
def dictUpdate1 {α : Type} (d : List (PyStr × α)) (kv : PyStr × α) :
    List (PyStr × α) :=
  if d.any (fun p => p.1 == kv.1) then
    d.map (fun p => if p.1 == kv.1 then (p.1, kv.2) else p)
  else d ++ [kv]

/-- Python `d.update(q)` for insertion-ordered dicts. -/
def dictUpdate {α : Type} (d q : List (PyStr × α)) : List (PyStr × α) :=
  q.foldl dictUpdate1 d

/-- First-match lookup (`d[k]`) in an insertion-ordered association list. -/
def lookupKey {α : Type} (d : List (PyStr × α)) (k : PyStr) : Option α :=
  (d.find? (fun p => p.1 == k)).map (fun p => p.2)

/-- Model of `urllib.parse.urlencode(qs, doseq=True)`: string values are encoded
directly, sequence values produce one `k=v` pair per element. -/
def urlencodeDoseq (qs : List (PyStr × QVal)) : PyStr :=
  List.intercalate (py "&")
    (qs.map (fun p =>
      match p.2 with
      | .one s => [quotePlus p.1 ++ '=' :: quotePlus s]
      | .many l => l.map (fun v => quotePlus p.1 ++ '=' :: quotePlus v))).flatten

/-- The query dict held by `resolve` after `qs.update(query or {})`:
the parsed multi-valued query updated with the caller's mapping. -/
def mergedQuery (u : URL) (query : List (PyStr × PyStr)) : List (PyStr × QVal) :=
  dictUpdate (u.parse_query.map (fun p => (p.1, QVal.many p.2)))
    (query.map (fun p => (p.1, QVal.one p.2)))

/-- Model of `URL.resolve(*endpoint, query=query)`: join the endpoint onto the path
with `posixpath.join`, update the parsed query with the supplied mapping,
and build a new `URL`, the original unmodified. -/
def URL.resolve (u : URL) (endpoint : List PyStr)
    (query : List (PyStr × PyStr)) : URL :=
  let path := posixJoin u.path endpoint
  let qs := mergedQuery u query
  ⟨u.scheme, u.netloc, path, u.params,
   if !qs.isEmpty then urlencodeDoseq qs else [], u.fragment⟩

/-- Model of `parse_host(url)`: the authority when present, else the first path
segment (`urlparse` is called with `scheme="https"`,
`allow_fragments=False`). -/
def parse_host (url : PyStr) : PyStr :=
  let parsed := urlparsePy url (py "https") false
  if !parsed.netloc.isEmpty then parsed.netloc
  else (splitAll '/' parsed.path).headD []

/-- Model of `parse_content_type(mime)`: `email.message` splits the header on `;`;
the first token, stripped, is the main content type (`Message.get_params`
preserves its case, so `Application/JSON` stays as sent); the remaining
`name=value` tokens are the parameters, with the parameter names
lowercased (as `get_params` does) but their values kept as sent. -/
def parse_content_type (mime : PyStr) : PyStr × List (PyStr × PyStr) :=
  let parts := splitAll ';' mime
  let strip := fun (s : PyStr) =>
    (s.dropWhile (· == ' ')).reverse.dropWhile (· == ' ') |>.reverse
  (strip (parts.headD []),
   parts.tail.filterMap (fun p =>
     match splitFirst '=' p with
     | some q => some (pyToLower (strip q.1), strip q.2)
     | none => some (pyToLower (strip p), [])))

/-!
## Response handling (`Client.handle`, `guidelight/client.py` 227-278)

A `requests.Response` is modelled by its status code, its `Content-Type`
header, the result of `rep.json()` (`none` when the body does not decode,
in which case `rep.json()` raises `JSONDecodeError`), and its raw body.
Python subscripting, `in` and iteration on decoded JSON values are
modelled including the `TypeError`/`KeyError` they raise on non-dict
values, because only `JSONDecodeError` is caught by `handle`.
-/

/-- The observable parts of a `requests.Response`. -/
structure Response where
  status_code : Nat
  content_type : PyStr
  jsonBody : Option Json
  content : PyStr

/-- What a successful `handle` returns: `None` (204), a decoded JSON
value, or the raw body bytes. -/
inductive HVal where
  | json (j : Json)
  | bytes (b : PyStr)

/-- Python `key in value` on a decoded JSON value: dict key lookup, list
membership, substring test; `TypeError` otherwise. -/
def pyIn (k : PyStr) : Json → Except Exc Bool
  | .obj l => .ok (l.any (fun p => p.1 == k))
  | .arr l => .ok (l.any (fun j => match j with | .str s => s == k | _ => false))
  | .str s => .ok (pyInfixOf k s)
  | _ => .error ⟨.TypeError, .str (py "argument is not iterable")⟩

/-- Python `value[key]` on a decoded JSON value: dict lookup raising
`KeyError` on a missing key, `TypeError` on non-dict values. -/
def pyGetItem (j : Json) (k : PyStr) : Except Exc Json :=
  match j with
  | .obj l =>
    match l.find? (fun p => p.1 == k) with
    | some p => .ok p.2
    | none => .error ⟨.KeyError, .str k⟩
  | _ => .error ⟨.TypeError, .str (py "indices must be integers")⟩

/-- Python iteration over a decoded JSON value: list elements, the
characters of a string, the keys of a dict; `TypeError` otherwise. -/
def pyIter : Json → Except Exc (List Json)
  | .arr l => .ok l
  | .str s => .ok (s.map (fun c => .str [c]))
  | .obj l => .ok (l.map (fun p => .str p.1))
  | _ => .error ⟨.TypeError, .str (py "not iterable")⟩

/-- A decoded error body of the shape the spec's data model prescribes
(`{error: optional<string>, errors: optional<list<{field, error}>>}`,
either field may be absent, or no decodable body at all).  Bodies outside
this shape make the uncaught `TypeError`/`KeyError` paths of `handle`
reachable and are outside the response-mapping claims. -/
def wellFormedErrBody : Option Json → Bool
  | none => true
  | some (.obj l) =>
    (match l.find? (fun p => p.1 == py "error") with
     | none => true
     | some p => match p.2 with | .str _ => true | _ => false) &&
    (match l.find? (fun p => p.1 == py "errors") with
     | none => true
     | some p =>
       match p.2 with
       | .arr es =>
         es.all (fun e =>
           match e with
           | .obj f =>
             (f.find? (fun q => q.1 == py "field")).isSome &&
             (f.find? (fun q => q.1 == py "error")).isSome
           | _ => false)
       | _ => false)
  | some _ => false

/-- The 4xx message computation of `handle` (client.py 245-257): start
from the generic message, override it with a JSON `error` field and append
the formatted `errors` entries; only `JSONDecodeError` (modelled by
`body = none`) is caught. -/
def clientErrMessage (status : Nat) (host : PyStr) (body : Option Json) :
    Except Exc Json :=
  let generic := Json.str (natToStr status ++ py " response from " ++ host)
  match body with
  | none => .ok generic
  | some err => do
    let hasE ← pyIn (py "error") err
    let message ← if hasE then pyGetItem err (py "error") else pure generic
    let hasEs ← pyIn (py "errors") err
    if hasEs then
      let es ← pyGetItem err (py "errors")
      let elems ← pyIter es
      let lines ← elems.mapM (fun e => do
        let f ← pyGetItem e (py "field")
        let v ← pyGetItem e (py "error")
        pure (pyJsonStr f ++ py ": " ++ pyJsonStr v))
      match message with
      | .str s =>
        pure (.str (s ++ py ":\n  " ++ List.intercalate (py "\n  ") lines))
      | _ => Except.error ⟨.TypeError, .str (py "can only concatenate str")⟩
    else pure message

/-- The 5xx message computation of `handle` (client.py 266-273).  Note the
stray `]` that client.py line 266 appends to the generic message
(`f"{rep.status_code} response from {self._host}]"`); the cached
`self._host` is the same value as `self.host` for any constructed
client. -/
def serverErrMessage (status : Nat) (host : PyStr) (body : Option Json) :
    Except Exc Json :=
  let generic := Json.str (natToStr status ++ py " response from " ++ host ++ py "]")
  match body with
  | none => .ok generic
  | some err => do
    let hasE ← pyIn (py "error") err
    if hasE then pyGetItem err (py "error") else pure generic

/-- Model of `Client.handle(rep)` (client.py 227-278). -/
def Client.handle (host : PyStr) (rep : Response) : Except Exc (Option HVal) :=
  if rep.status_code = 401 ∨ rep.status_code = 403 then
    .error ⟨.AuthenticationError, .str (py "authentication failed")⟩
  else if rep.status_code = 204 then
    .ok none
  else if 200 ≤ rep.status_code ∧ rep.status_code < 300 then
    if (parse_content_type rep.content_type).1 == py "application/json" then
      match rep.jsonBody with
      | some j => .ok (some (.json j))
      | none => .error ⟨.JSONDecodeError, .str (py "Expecting value")⟩
    else .ok (some (.bytes rep.content))
  else if 400 ≤ rep.status_code ∧ rep.status_code < 500 then
    match clientErrMessage rep.status_code host rep.jsonBody with
    | .error e => .error e
    | .ok m =>
      if rep.status_code = 404 then .error ⟨.NotFound, m⟩
      else .error ⟨.ClientError, m⟩
  else if 500 ≤ rep.status_code ∧ rep.status_code < 600 then
    match serverErrMessage rep.status_code host rep.jsonBody with
    | .error e => .error e
    | .ok m => .error ⟨.ServerError, m⟩
  else
    .error ⟨.ValueError, .str (py "unhandled status code " ++ natToStr rep.status_code)⟩

/-!
## Client state and the verb pipeline (`guidelight/client.py`)

The client's mutable state is its parsed base URL, api key material and
credentials slot; the HTTP transport (`requests.Session`) is a function
from requests to responses.  Every flow function returns the transport
requests it issued, in order, the resulting client state, and either the
handled value or the raised exception.
-/

/-- Modelled from the spec: `guidelight/credentials.py` is imported by
`client.py` but is not among the given sources.  Per the spec (§3, §4.2)
`Credentials` holds the `access_token`/`refresh_token` pair returned by an
authenticate or reauthenticate exchange, immutable after construction;
`is_authenticated()` is true iff the access token is present and
`is_refreshable()` is true iff the refresh token is present (presence,
not signature or expiry, per the spec's note). -/
structure Credentials where
  access_token : Json
  refresh_token : Json

/-- Modelled from the spec: true iff the access token is present. -/
def Credentials.is_authenticated (c : Credentials) : Bool :=
  jsonTruthy c.access_token

/-- Modelled from the spec: true iff the refresh token is present. -/
def Credentials.is_refreshable (c : Credentials) : Bool :=
  jsonTruthy c.refresh_token

/-- The client's state: resolved configuration (constructor argument or
environment fallback already applied) plus the one mutable credentials
slot.  `user_agent` stands for the version string built in `__init__`
(`version.py` is not among the given sources). -/
structure ClientState where
  url : Option URL
  client_id : Option PyStr
  client_secret : Option PyStr
  creds : Option Credentials
  user_agent : PyStr

/-- An HTTP request as passed to `requests.Session`: method, target URL,
headers, and the JSON payload for POST/PUT. -/
structure Request where
  method : PyStr
  url : URL
  headers : List (PyStr × PyStr)
  body : Option Json

/-- The HTTP transport collaborator (`requests.Session`). -/
def Transport := Request → Response

/-- Python truthiness of an optional string (`None` and `""` are falsy). -/
def pyTruthyOptStr : Option PyStr → Bool
  | none => false
  | some s => !s.isEmpty

/-- The fixed default headers built in `Client.__init__`. -/
def defaultHeaders (ua : PyStr) : List (PyStr × PyStr) :=
  [(py "Accept", py "application/json"),
   (py "Accept-Language", py "en-US,en"),
   (py "Accept-Encoding", py "gzip, deflate, br"),
   (py "Content-Type", py "application/json; charset=utf-8"),
   (py "User-Agent", ua)]

/-- Model of `Client.host`: the authority of the base URL when present, else the
first path segment (client.py 136-146). -/
def Client.host (st : ClientState) : PyStr :=
  match st.url with
  | none => []
  | some u => if !u.netloc.isEmpty then u.netloc else (splitAll '/' u.path).headD []

/-- The port-stripping step of `Client.is_localhost` (client.py 296-298). -/
def stripPort (host : PyStr) : PyStr :=
  if host.contains ':' then (splitAll ':' host).headD [] else host

/-- Model of `Client.is_localhost` (client.py 292-299). -/
def Client.is_localhost (host : PyStr) : Bool :=
  stripPort host == py "localhost" || pyEndsWith (py ".local") (stripPort host)

/-- The `Client.prefix` property (client.py 148-159): `http` for local
hosts, `https` otherwise, `ValueError` when there is no host. -/
def Client.schemeOf (host : PyStr) : Except Exc PyStr :=
  if host.isEmpty then
    .error ⟨.ValueError, .str (py "cannot compute prefix without host")⟩
  else .ok (if Client.is_localhost host then py "http" else py "https")

/-- Model of `Client._make_endpoint` (client.py 301-302): resolve `"/", "v1",
*endpoint` against the base URL. -/
def Client.make_endpoint (u : URL) (endpoint : List PyStr)
    (query : List (PyStr × PyStr)) : URL :=
  u.resolve (py "/" :: py "v1" :: endpoint) query

/-- Model of `rep["access_token"]`-style subscripting of a handled response value:
`TypeError` when the verb returned `None` (204) or raw bytes. -/
def hvalGetItem (v : Option HVal) (k : PyStr) : Except Exc Json :=
  match v with
  | some (.json j) => pyGetItem j k
  | some (.bytes _) => .error ⟨.TypeError, .str (py "byte indices must be integers")⟩
  | none => .error ⟨.TypeError, .str (py "NoneType is not subscriptable")⟩

/-- A verb call with `require_authentication=False`: `_pre_flight` checks
the URL and takes the default headers, `_make_endpoint` builds the target
URL, the transport is invoked once and the response handled.  This is the
shared shape of `get`/`post`/`put`/`delete` (client.py 161-225) in the
unauthenticated case. -/
def Client.request_noauth (st : ClientState) (tr : Transport) (method : PyStr)
    (data : Option Json) (endpoint : List PyStr)
    (query : List (PyStr × PyStr)) :
    List Request × Except Exc (Option HVal) :=
  match st.url with
  | none => ([], .error ⟨.ClientError, .str (py "no Endeavor URL has been configured")⟩)
  | some u =>
    let headers := dictUpdate [] (defaultHeaders st.user_agent)
    let req : Request := ⟨method, Client.make_endpoint u endpoint query, headers, data⟩
    ([req], Client.handle (Client.host st) (tr req))

/-- Model of `Client._authenticate` (client.py 325-331): fail locally when the api
key material is falsy, otherwise POST `{client_id, client_secret}` to the
`authenticate` endpoint without authentication and build `Credentials`
from the `access_token`/`refresh_token` fields of the reply. -/
def Client.authenticate (st : ClientState) (tr : Transport) :
    List Request × Except Exc Credentials :=
  if !pyTruthyOptStr st.client_id || !pyTruthyOptStr st.client_secret then
    ([], .error ⟨.AuthenticationError, .str (py "no client id or secret specified")⟩)
  else
    let apikey := Json.obj
      [(py "client_id", .str (st.client_id.getD [])),
       (py "client_secret", .str (st.client_secret.getD []))]
    match Client.request_noauth st tr (py "POST") (some apikey) [py "authenticate"] [] with
    | (trace, .error e) => (trace, .error e)
    | (trace, .ok v) =>
      (trace, do
        let at' ← hvalGetItem v (py "access_token")
        let rt ← hvalGetItem v (py "refresh_token")
        pure ⟨at', rt⟩)

/-- Model of `Client._reauthenticate` (client.py 333-339).  The `none` credentials
arm models the `AttributeError` Python would raise on `self._creds.
refresh_token`; it is unreachable from the verb pipeline, which only
refreshes when credentials are present. -/
def Client.reauthenticate (st : ClientState) (tr : Transport) :
    List Request × Except Exc Credentials :=
  match st.creds with
  | none => ([], .error ⟨.TypeError, .str (py "NoneType has no attribute")⟩)
  | some c =>
    if !jsonTruthy c.refresh_token then
      ([], .error ⟨.AuthenticationError, .str (py "no refresh token available")⟩)
    else
      let refresh := Json.obj [(py "refresh_token", .str (pyJsonStr c.refresh_token))]
      match Client.request_noauth st tr (py "POST") (some refresh) [py "reauthenticate"] [] with
      | (trace, .error e) => (trace, .error e)
      | (trace, .ok v) =>
        (trace, do
          let at' ← hvalGetItem v (py "access_token")
          let rt ← hvalGetItem v (py "refresh_token")
          pure ⟨at', rt⟩)

/-- Model of `Client.is_authenticated` (client.py 280-284). -/
def Client.is_authenticated (st : ClientState) : Bool :=
  match st.creds with
  | none => false
  | some c => c.is_authenticated

/-- Model of `Client.is_refreshable` (client.py 286-290). -/
def Client.is_refreshable (st : ClientState) : Bool :=
  match st.creds with
  | none => false
  | some c => c.is_refreshable

/-- Model of `Client._authentication_headers` (client.py 315-323): reuse
authenticated credentials, else refresh when refreshable, else perform the
full authenticate exchange; then attach the bearer header from the stored
access token.  The `Json.null` fallback is unreachable: on the ok path the
credentials slot is always populated. -/
def Client.authentication_headers (st : ClientState) (tr : Transport) :
    List Request × ClientState × Except Exc (List (PyStr × PyStr)) :=
  let (trace, st', res) :=
    if Client.is_authenticated st then ([], st, Except.ok ())
    else if Client.is_refreshable st then
      match Client.reauthenticate st tr with
      | (t, .error e) => (t, st, .error e)
      | (t, .ok c) => (t, { st with creds := some c }, .ok ())
    else
      match Client.authenticate st tr with
      | (t, .error e) => (t, st, .error e)
      | (t, .ok c) => (t, { st with creds := some c }, .ok ())
  match res with
  | .error e => (trace, st', .error e)
  | .ok _ =>
    (trace, st',
     .ok [(py "Authorization",
           py "Bearer " ++ pyJsonStr (match st'.creds with
                                      | some c => c.access_token
                                      | none => Json.null))])

/-- A verb call (client.py 161-225 with `_pre_flight`, client.py 304-313):
check the URL, build the headers (defaults, then the authentication
header when required), build the target URL, invoke the transport once
and handle the response.  `get`/`post`/`put`/`delete` all follow this
shape and differ only in the method name and payload. -/
def Client.request (st : ClientState) (tr : Transport) (method : PyStr)
    (data : Option Json) (endpoint : List PyStr)
    (query : List (PyStr × PyStr)) (require_authentication : Bool) :
    List Request × ClientState × Except Exc (Option HVal) :=
  match st.url with
  | none => ([], st, .error ⟨.ClientError, .str (py "no Endeavor URL has been configured")⟩)
  | some u =>
    if require_authentication then
      match Client.authentication_headers st tr with
      | (t, st', .error e) => (t, st', .error e)
      | (t, st', .ok ah) =>
        let headers := dictUpdate (dictUpdate [] (defaultHeaders st.user_agent)) ah
        let req : Request := ⟨method, Client.make_endpoint u endpoint query, headers, data⟩
        (t ++ [req], st', Client.handle (Client.host st') (tr req))
    else
      let headers := dictUpdate [] (defaultHeaders st.user_agent)
      let req : Request := ⟨method, Client.make_endpoint u endpoint query, headers, data⟩
      ([req], st, Client.handle (Client.host st) (tr req))

/-- Model of `Client.get`. -/
def Client.get (st : ClientState) (tr : Transport) (endpoint : List PyStr)
    (query : List (PyStr × PyStr)) (require_authentication : Bool) :
    List Request × ClientState × Except Exc (Option HVal) :=
  Client.request st tr (py "GET") none endpoint query require_authentication

/-- Model of `Client.post`. -/
def Client.post (st : ClientState) (tr : Transport) (data : Json)
    (endpoint : List PyStr) (query : List (PyStr × PyStr))
    (require_authentication : Bool) :
    List Request × ClientState × Except Exc (Option HVal) :=
  Client.request st tr (py "POST") (some data) endpoint query require_authentication

/-- Model of `Client.put`. -/
def Client.put (st : ClientState) (tr : Transport) (data : Json)
    (endpoint : List PyStr) (query : List (PyStr × PyStr))
    (require_authentication : Bool) :
    List Request × ClientState × Except Exc (Option HVal) :=
  Client.request st tr (py "PUT") (some data) endpoint query require_authentication

/-- Model of `Client.delete`. -/
def Client.delete (st : ClientState) (tr : Transport) (endpoint : List PyStr)
    (query : List (PyStr × PyStr)) (require_authentication : Bool) :
    List Request × ClientState × Except Exc (Option HVal) :=
  Client.request st tr (py "DELETE") none endpoint query require_authentication


/-!
## Path joining lemmas
-/

/-- Fact: `posixpath.join` restarts at every absolute component: joining from the
start equals joining the remaining components onto the last absolute one. -/
theorem posixJoin_lastAbsSplit (x : PyStr) (segs : List PyStr) :
    posixJoin x segs =
      (match lastAbsSplit segs with
       | some p => posixJoin p.1 p.2
       | none => posixJoin x segs) := by
  induction segs generalizing x with
  | nil => rfl
  | cons b rest ih =>
    show posixJoin (posixJoin1 x b) rest = _
    show _ = (match lastAbsSplit (b :: rest) with
              | some p => posixJoin p.1 p.2
              | none => posixJoin x (b :: rest))
    unfold lastAbsSplit
    cases h : lastAbsSplit rest with
    | some p =>
      have := ih (posixJoin1 x b)
      rw [h] at this
      simpa using this
    | none =>
      by_cases hb : startsSlash b
      · have hj : posixJoin1 x b = b := by
          unfold posixJoin1
          rw [if_pos hb]
        have := ih (posixJoin1 x b)
        rw [h] at this
        simp only [hb, if_true]
        rw [hj]
      · simp only [hb, if_false]
        rfl

/-- When no component is absolute or empty or contains a separator, the
join appends each component after a fresh `/`. -/
theorem posixJoin_append (acc : PyStr) (segs : List PyStr)
    (hacc : acc ≠ []) (hend : acc.getLast? ≠ some '/')
    (hsegs : ∀ s ∈ segs, s ≠ [] ∧ '/' ∉ s) :
    posixJoin acc segs = acc ++ (segs.map (fun s => '/' :: s)).flatten := by
  induction segs generalizing acc with
  | nil => simp [posixJoin]
  | cons s rest ih =>
    have hs := hsegs s (by simp)
    have hstep : posixJoin1 acc s = acc ++ '/' :: s := by
      unfold posixJoin1
      have h1 : startsSlash s = false := by
        cases s with
        | nil => exact absurd rfl hs.1
        | cons c t =>
          have : c ≠ '/' := fun hc => hs.2 (hc ▸ List.mem_cons_self c t)
          simp [startsSlash, this]
      have h2 : (acc.isEmpty || endsSlash acc) = false := by
        have he : acc.isEmpty = false := by simpa using hacc
        have hd : endsSlash acc = false := by
          simp only [endsSlash]
          exact beq_eq_false_iff_ne.mpr hend
        simp [he, hd]
      rw [h1, h2]
      simp
    show posixJoin (posixJoin1 acc s) rest = _
    rw [hstep]
    have hne : acc ++ '/' :: s ≠ [] := by simp
    have hlast : (acc ++ '/' :: s).getLast? ≠ some '/' := by
      cases s with
      | nil => exact absurd rfl hs.1
      | cons c t =>
        rw [List.getLast?_append, List.getLast?_cons_cons]
        cases hgl : (c :: t).getLast? with
        | none => simp at hgl
        | some x =>
          have hx : x ∈ c :: t := List.mem_of_mem_getLast? (by simp [hgl])
          have hxne : x ≠ '/' := fun hxe => hs.2 (hxe ▸ hx)
          simpa [Option.or] using hxne
    have := ih (acc ++ '/' :: s) hne hlast (fun t ht => hsegs t (by simp [ht]))
    rw [this]
    simp

/-!
## C5: resolve path semantics
-/

/-- Claim C5. For every URL `u`, segment list and query, the path of
`u.resolve(...)` is: the remaining segments joined onto the last absolute
segment, discarding all prior path components, when some segment is
absolute; and the segments joined onto `u`'s existing path otherwise.
In particular `resolve("https://h/v1", "/", "v2", "x")` has path `/v2/x`
and `resolve("https://h/v1", "agents")` has path `/v1/agents`. -/
theorem C5_resolve_path_semantics (u : URL) (endpoint : List PyStr)
    (query : List (PyStr × PyStr)) :
    ((u.resolve endpoint query).path =
      match lastAbsSplit endpoint with
      | some p => posixJoin p.1 p.2
      | none => posixJoin u.path endpoint) ∧
    ((URL.parse (py "https://h/v1")).resolve [py "/", py "v2", py "x"] []).path
      = py "/v2/x" ∧
    ((URL.parse (py "https://h/v1")).resolve [py "agents"] []).path
      = py "/v1/agents" :=
  ⟨posixJoin_lastAbsSplit u.path endpoint, by decide, by decide⟩

/-!
## C7: endpoint composition
-/

/-- Claim C7. For every verb call on a client with configured base URL, the
composed target URL keeps the base URL's scheme and authority and its path
is the fixed `/v1` prefix followed by the caller's segments in order (for
well-formed segments: nonempty and without a path separator); the base
URL's own path is discarded by the absolute `/` component. -/
theorem C7_endpoint_composition (u : URL) (endpoint : List PyStr)
    (query : List (PyStr × PyStr))
    (hseg : ∀ s ∈ endpoint, s ≠ [] ∧ '/' ∉ s) :
    (Client.make_endpoint u endpoint query).scheme = u.scheme ∧
    (Client.make_endpoint u endpoint query).netloc = u.netloc ∧
    (Client.make_endpoint u endpoint query).path =
      py "/v1" ++ (endpoint.map (fun s => '/' :: s)).flatten := by
  refine ⟨rfl, rfl, ?_⟩
  show posixJoin u.path (py "/" :: py "v1" :: endpoint) = _
  have h1 : posixJoin1 u.path (py "/") = py "/" := by
    unfold posixJoin1
    rw [if_pos (by decide)]
  have h2 : posixJoin (py "/v1") endpoint
      = py "/v1" ++ (endpoint.map (fun s => '/' :: s)).flatten :=
    posixJoin_append (py "/v1") endpoint (by decide) (by decide) hseg
  show List.foldl posixJoin1 u.path (py "/" :: py "v1" :: endpoint) = _
  rw [List.foldl_cons, h1, List.foldl_cons]
  exact h2

/-- Claim C7 witness. The composition at a concrete base URL and segments. -/
theorem C7_endpoint_composition_witness :
    (Client.make_endpoint (URL.parse (py "https://guidelight.dev/old"))
      [py "agents", py "a1"] []).scheme = py "https" ∧
    (Client.make_endpoint (URL.parse (py "https://guidelight.dev/old"))
      [py "agents", py "a1"] []).netloc = py "guidelight.dev" ∧
    (Client.make_endpoint (URL.parse (py "https://guidelight.dev/old"))
      [py "agents", py "a1"] []).path = py "/v1/agents/a1" := by
  have h := C7_endpoint_composition (URL.parse (py "https://guidelight.dev/old"))
    [py "agents", py "a1"] [] (by decide)
  exact ⟨by rw [h.1]; decide, by rw [h.2.1]; decide, by rw [h.2.2]; decide⟩

/-!
## C10: unhandled status codes
-/

/-- Claim C10. A response status outside 200-299 and outside 400-599 makes
`Client.handle` raise `ValueError`, which is not a subclass of
`GuidelightError`, so a caller catching only the documented hierarchy does
not catch it. -/
theorem C10_unhandled_status_ValueError (host : PyStr) (rep : Response)
    (h2 : ¬(200 ≤ rep.status_code ∧ rep.status_code < 300))
    (h4 : ¬(400 ≤ rep.status_code ∧ rep.status_code < 600)) :
    Client.handle host rep =
      .error ⟨.ValueError, .str (py "unhandled status code " ++ natToStr rep.status_code)⟩ ∧
    ExcClass.isSubclassOf .ValueError .GuidelightError = false := by
  refine ⟨?_, by decide⟩
  unfold Client.handle
  rw [if_neg (by omega), if_neg (by omega), if_neg h2,
    if_neg (show ¬(400 ≤ rep.status_code ∧ rep.status_code < 500) by omega),
    if_neg (show ¬(500 ≤ rep.status_code ∧ rep.status_code < 600) by omega)]

/-- Claim C10 witness. A 302 response raises the uncatchable `ValueError`. -/
theorem C10_unhandled_status_ValueError_witness :
    Client.handle (py "h") ⟨302, [], none, []⟩ =
      .error ⟨.ValueError, .str (py "unhandled status code " ++ natToStr 302)⟩ ∧
    ExcClass.isSubclassOf .ValueError .GuidelightError = false :=
  C10_unhandled_status_ValueError (py "h") ⟨302, [], none, []⟩
    (by decide) (by decide)

/-!
## C8: error message derivation
-/

/-- Claim C8. The claim states the fallback message is exactly
`"<status> response from <host>"` for 4xx and 5xx alike.  The 4xx branch
does produce it, but the 5xx branch of `handle` (client.py line 266)
appends a stray `]` to the f-string, so a 500 response with an
undecodable body yields `"500 response from example.com]"`.  The JSON
`error` field override and the 4xx `errors` line formatting behave as
claimed. -/
theorem C8_generic_message_5xx_stray_bracket :
    Client.handle (py "example.com") ⟨500, [], none, py "oops"⟩ =
      .error ⟨.ServerError, .str (py "500 response from example.com]")⟩ ∧
    Client.handle (py "example.com") ⟨404, [], none, py "oops"⟩ =
      .error ⟨.NotFound, .str (py "404 response from example.com")⟩ ∧
    Client.handle (py "example.com") ⟨418, [], none, py "oops"⟩ =
      .error ⟨.ClientError, .str (py "418 response from example.com")⟩ ∧
    Client.handle (py "example.com")
        ⟨500, py "application/json", some (.obj [(py "error", .str (py "boom"))]),
         []⟩ =
      .error ⟨.ServerError, .str (py "boom")⟩ ∧
    Client.handle (py "example.com")
        ⟨400, py "application/json",
         some (.obj [(py "error", .str (py "bad")),
                     (py "errors", .arr [.obj [(py "field", .str (py "name")),
                                              (py "error", .str (py "required"))]])]),
         []⟩ =
      .error ⟨.ClientError, .str (py "bad:\n  name: required")⟩ :=
  ⟨rfl, rfl, rfl, rfl, rfl⟩

/-!
## C4: scheme selection
-/

/-- Claim C4 counterexample. The claim includes `127.0.0.1`-style loopback
addresses among the hosts that get the `http` scheme, but
`Client.is_localhost` only recognises `localhost` and `*.local`: the
prefix computed for host `127.0.0.1` is `https`, not `http`. -/
theorem C4_loopback_gets_https :
    Client.schemeOf (py "127.0.0.1") = .ok (py "https") ∧
    ¬(Client.schemeOf (py "127.0.0.1") = .ok (py "http")) := by
  refine ⟨rfl, fun h => ?_⟩
  have h' : Except.ok (ε := Exc) (py "https") = Except.ok (py "http") := h
  exact absurd (Except.ok.inj h') (by decide)

/-- Claim C4 (amended). For every nonempty host, the request scheme is
`http` iff the host with any `:port` suffix removed is exactly
`localhost` or ends in `.local`; every other host, loopback IP addresses
included, gets `https`. -/
theorem C4_scheme_iff_local (host : PyStr) (h : host ≠ []) :
    Client.schemeOf host = .ok (py "http") ↔
      (stripPort host = py "localhost" ∨
       pyEndsWith (py ".local") (stripPort host) = true) := by
  unfold Client.schemeOf
  rw [if_neg (by simpa using h)]
  by_cases hl : Client.is_localhost host
  · simp only [hl, if_true, true_iff]
    have := hl
    unfold Client.is_localhost at this
    rcases (Bool.or_eq_true _ _).mp this with h1 | h2
    · exact Or.inl (eq_of_beq h1)
    · exact Or.inr h2
  · simp only [hl, if_false]
    constructor
    · intro hok
      exact absurd (Except.ok.inj hok) (by decide)
    · intro hr
      exfalso
      apply hl
      unfold Client.is_localhost
      rcases hr with h1 | h2
      · simp [h1]
      · simp [h2]

/-- Claim C4 (amended) witness. `localhost:9000` gets `http`. -/
theorem C4_scheme_iff_local_witness :
    py "localhost:9000" ≠ [] ∧
    (Client.schemeOf (py "localhost:9000") = .ok (py "http") ↔
      (stripPort (py "localhost:9000") = py "localhost" ∨
       pyEndsWith (py ".local") (stripPort (py "localhost:9000")) = true)) :=
  ⟨by decide, C4_scheme_iff_local (py "localhost:9000") (by decide)⟩


/-!
## C2: response mapping
-/

/-- Bind of an ok value in the `Except Exc` monad. -/
theorem ok_bind {α β : Type} (a : α) (f : α → Except Exc β) :
    (Except.ok a >>= f) = f a := rfl

/-- Fact: `pure` in the `Except Exc` monad is `Except.ok`. -/
theorem pure_eq_ok {α : Type} (a : α) : (pure a : Except Exc α) = .ok a := rfl

/-- Fact: `l.any p` is the defined-ness of `l.find? p`. -/
theorem any_eq_find?_isSome {α : Type} (l : List α) (p : α → Bool) :
    l.any p = (l.find? p).isSome := by
  induction l with
  | nil => rfl
  | cons a t ih =>
    by_cases hp : p a
    · simp [List.any_cons, List.find?_cons, hp]
    · simp [List.any_cons, List.find?_cons, hp, ih]

/-- Dict lookup on a decoded JSON object, written through `List.find?`. -/
theorem pyGetItem_obj (l : List (PyStr × Json)) (k : PyStr) (q : PyStr × Json)
    (hk : l.find? (fun p => p.1 == k) = some q) :
    pyGetItem (.obj l) k = .ok q.2 := by
  show ((match l.find? (fun p => p.1 == k) with
         | some p => Except.ok p.2
         | none => Except.error ⟨.KeyError, .str k⟩) : Except Exc Json) = _
  rw [hk]

/-- Membership test on a decoded JSON object, via `List.find?`. -/
theorem pyIn_obj (l : List (PyStr × Json)) (k : PyStr) :
    pyIn k (.obj l) = .ok ((l.find? (fun p => p.1 == k)).isSome) := by
  show Except.ok (l.any fun p => p.1 == k) = _
  rw [any_eq_find?_isSome]

/-- Formatting the entries of a well-formed `errors` list succeeds. -/
theorem formatLines_ok (es : List Json)
    (h : es.all (fun e =>
           match e with
           | .obj f =>
             (f.find? (fun q => q.1 == py "field")).isSome &&
             (f.find? (fun q => q.1 == py "error")).isSome
           | _ => false) = true) :
    ∃ lines, es.mapM (fun e => do
        let f ← pyGetItem e (py "field")
        let v ← pyGetItem e (py "error")
        pure (pyJsonStr f ++ py ": " ++ pyJsonStr v))
      = Except.ok (ε := Exc) lines := by
  induction es with
  | nil => exact ⟨[], rfl⟩
  | cons e rest ih =>
    simp only [List.all_cons, Bool.and_eq_true] at h
    obtain ⟨lines, hl⟩ := ih h.2
    cases e with
    | obj f =>
      have h1h := h.1
      simp only [Bool.and_eq_true] at h1h
      obtain ⟨h1, h2⟩ := h1h
      obtain ⟨pf, hpf⟩ : ∃ pf, f.find? (fun q => q.1 == py "field") = some pf := by
        cases hc : f.find? (fun q => q.1 == py "field") with
        | none => rw [hc] at h1; exact absurd h1 (by simp)
        | some pf => exact ⟨pf, rfl⟩
      obtain ⟨pv, hpv⟩ : ∃ pv, f.find? (fun q => q.1 == py "error") = some pv := by
        cases hc : f.find? (fun q => q.1 == py "error") with
        | none => rw [hc] at h2; exact absurd h2 (by simp)
        | some pv => exact ⟨pv, rfl⟩
      refine ⟨(pyJsonStr pf.2 ++ py ": " ++ pyJsonStr pv.2) :: lines, ?_⟩
      rw [List.mapM_cons, pyGetItem_obj f (py "field") pf hpf, ok_bind,
        pyGetItem_obj f (py "error") pv hpv, ok_bind, hl]
      rfl
    | null => exact absurd h.1 (by simp)
    | bool b => exact absurd h.1 (by simp)
    | num n => exact absurd h.1 (by simp)
    | str s => exact absurd h.1 (by simp)
    | arr a => exact absurd h.1 (by simp)

/-- The 4xx message computation succeeds on well-formed error bodies. -/
theorem clientErrMessage_ok (status : Nat) (host : PyStr) (body : Option Json)
    (h : wellFormedErrBody body = true) :
    ∃ m, clientErrMessage status host body = .ok m := by
  cases body with
  | none =>
    exact ⟨Json.str (natToStr status ++ py " response from " ++ host), rfl⟩
  | some err =>
    cases err with
    | obj l =>
      simp only [wellFormedErrBody, Bool.and_eq_true] at h
      obtain ⟨h1, h2⟩ := h
      simp only [clientErrMessage, pyIn_obj, ok_bind]
      cases hfe : l.find? (fun p => p.1 == py "error") with
      | none =>
        rw [if_neg (by simp)]
        rw [pure_eq_ok, ok_bind]
        cases hfs : l.find? (fun p => p.1 == py "errors") with
        | none =>
          rw [if_neg (by simp)]
          exact ⟨Json.str (natToStr status ++ py " response from " ++ host), rfl⟩
        | some q =>
          rw [hfs] at h2
          simp only [] at h2
          rw [if_pos (by simp), pyGetItem_obj l (py "errors") q hfs, ok_bind]
          cases hq2 : q.2 with
          | arr es =>
            rw [hq2] at h2
            rw [show pyIter (.arr es) = Except.ok (ε := Exc) es from rfl, ok_bind]
            obtain ⟨lines, hlines⟩ := formatLines_ok es h2
            rw [hlines, ok_bind]
            exact ⟨_, rfl⟩
          | null => rw [hq2] at h2; exact absurd h2 (by simp)
          | bool b => rw [hq2] at h2; exact absurd h2 (by simp)
          | num n => rw [hq2] at h2; exact absurd h2 (by simp)
          | str s => rw [hq2] at h2; exact absurd h2 (by simp)
          | obj o => rw [hq2] at h2; exact absurd h2 (by simp)
      | some pe =>
        rw [hfe] at h1
        simp only [] at h1
        rw [if_pos (by simp), pyGetItem_obj l (py "error") pe hfe, ok_bind]
        cases hpe2 : pe.2 with
        | str s =>
          cases hfs : l.find? (fun p => p.1 == py "errors") with
          | none =>
            rw [if_neg (by simp)]
            exact ⟨Json.str s, rfl⟩
          | some q =>
            rw [hfs] at h2
            simp only [] at h2
            rw [if_pos (by simp), pyGetItem_obj l (py "errors") q hfs, ok_bind]
            cases hq2 : q.2 with
            | arr es =>
              rw [hq2] at h2
              rw [show pyIter (.arr es) = Except.ok (ε := Exc) es from rfl, ok_bind]
              obtain ⟨lines, hlines⟩ := formatLines_ok es h2
              rw [hlines, ok_bind]
              exact ⟨_, rfl⟩
            | null => rw [hq2] at h2; exact absurd h2 (by simp)
            | bool b => rw [hq2] at h2; exact absurd h2 (by simp)
            | num n => rw [hq2] at h2; exact absurd h2 (by simp)
            | str s' => rw [hq2] at h2; exact absurd h2 (by simp)
            | obj o => rw [hq2] at h2; exact absurd h2 (by simp)
        | null => rw [hpe2] at h1; exact absurd h1 (by simp)
        | bool b => rw [hpe2] at h1; exact absurd h1 (by simp)
        | num n => rw [hpe2] at h1; exact absurd h1 (by simp)
        | arr a => rw [hpe2] at h1; exact absurd h1 (by simp)
        | obj o => rw [hpe2] at h1; exact absurd h1 (by simp)
    | null => exact absurd h (by simp [wellFormedErrBody])
    | bool b => exact absurd h (by simp [wellFormedErrBody])
    | num n => exact absurd h (by simp [wellFormedErrBody])
    | str s => exact absurd h (by simp [wellFormedErrBody])
    | arr a => exact absurd h (by simp [wellFormedErrBody])

/-- The 5xx message computation succeeds on well-formed error bodies. -/
theorem serverErrMessage_ok (status : Nat) (host : PyStr) (body : Option Json)
    (h : wellFormedErrBody body = true) :
    ∃ m, serverErrMessage status host body = .ok m := by
  cases body with
  | none =>
    exact ⟨Json.str (natToStr status ++ py " response from " ++ host ++ py "]"), rfl⟩
  | some err =>
    cases err with
    | obj l =>
      simp only [serverErrMessage, pyIn_obj, ok_bind]
      cases hfe : l.find? (fun p => p.1 == py "error") with
      | none =>
        rw [if_neg (by simp)]
        exact ⟨Json.str (natToStr status ++ py " response from " ++ host ++ py "]"), rfl⟩
      | some pe =>
        rw [if_pos (by simp)]
        exact ⟨pe.2, pyGetItem_obj l (py "error") pe hfe⟩
    | null => exact absurd h (by simp [wellFormedErrBody])
    | bool b => exact absurd h (by simp [wellFormedErrBody])
    | num n => exact absurd h (by simp [wellFormedErrBody])
    | str s => exact absurd h (by simp [wellFormedErrBody])
    | arr a => exact absurd h (by simp [wellFormedErrBody])

/-- Claim C2 counterexample. The claim as stated is false: a 400 response
whose body decodes to the JSON number `5` does not raise `ClientError`.
The 4xx branch evaluates `"error" in rep.json()`, i.e. `"error" in 5`,
which raises `TypeError` — and `handle` catches only `JSONDecodeError`
(client.py 257), so the `TypeError` escapes uncaught in place of the
claimed `ClientError`. -/
theorem C2_claim_counterexample :
    Client.handle (py "example.com")
        ⟨400, py "application/json", some (.num 5), []⟩ =
      .error ⟨.TypeError, .str (py "argument is not iterable")⟩ ∧
    ¬ ∃ m, Client.handle (py "example.com")
        ⟨400, py "application/json", some (.num 5), []⟩ =
      .error ⟨.ClientError, m⟩ := by
  refine ⟨rfl, ?_⟩
  rintro ⟨m, hm⟩
  rw [show Client.handle (py "example.com")
        ⟨400, py "application/json", some (.num 5), []⟩ =
      .error ⟨.TypeError, .str (py "argument is not iterable")⟩ from rfl] at hm
  have h1 : ExcClass.TypeError = ExcClass.ClientError :=
    congrArg Exc.cls (Except.error.inj hm)
  exact absurd h1 (by decide)

/-- Claim C2, amended. `Client.handle` maps responses as the spec's table
states, with the 4xx/5xx rows scoped to error bodies of the documented
shape: 401/403 raise `AuthenticationError("authentication failed")` (and a
verb call that already holds authenticated credentials issues exactly one
transport request, so nothing is retried); 204 returns the empty result;
any other 2xx returns the decoded JSON value when the parsed main content
type is exactly `application/json` (a case-sensitive comparison) and the
raw body bytes otherwise; then, provided the decoded error body (if the
body decodes at all) has the documented
`{error: optional string, errors: optional list of {field, error}}` shape,
404 raises `NotFound`, every other 4xx raises `ClientError`, and every 5xx
raises `ServerError`.  Outside that shape the uncaught
`TypeError`/`KeyError` from the message formatting propagates instead
(only `JSONDecodeError` is caught), as the counterexample shows. -/
theorem C2_response_mapping (host : PyStr) (rep : Response) :
    ((rep.status_code = 401 ∨ rep.status_code = 403) →
      Client.handle host rep =
        .error ⟨.AuthenticationError, .str (py "authentication failed")⟩) ∧
    (rep.status_code = 204 → Client.handle host rep = .ok none) ∧
    (200 ≤ rep.status_code → rep.status_code < 300 → rep.status_code ≠ 204 →
      ((parse_content_type rep.content_type).1 = py "application/json" →
        ∀ j, rep.jsonBody = some j →
          Client.handle host rep = .ok (some (.json j))) ∧
      ((parse_content_type rep.content_type).1 ≠ py "application/json" →
        Client.handle host rep = .ok (some (.bytes rep.content)))) ∧
    (rep.status_code = 404 → wellFormedErrBody rep.jsonBody = true →
      ∃ m, Client.handle host rep = .error ⟨.NotFound, m⟩) ∧
    (400 ≤ rep.status_code → rep.status_code < 500 →
      rep.status_code ≠ 401 → rep.status_code ≠ 403 → rep.status_code ≠ 404 →
      wellFormedErrBody rep.jsonBody = true →
      ∃ m, Client.handle host rep = .error ⟨.ClientError, m⟩) ∧
    (500 ≤ rep.status_code → rep.status_code < 600 →
      wellFormedErrBody rep.jsonBody = true →
      ∃ m, Client.handle host rep = .error ⟨.ServerError, m⟩) ∧
    (∀ (st : ClientState) (tr : Transport) (u : URL) (c : Credentials)
       (method : PyStr) (data : Option Json) (endpoint : List PyStr)
       (query : List (PyStr × PyStr)),
       st.url = some u → st.creds = some c → c.is_authenticated = true →
       (Client.request st tr method data endpoint query true).1.length = 1) := by
  refine ⟨?_, ?_, ?_, ?_, ?_, ?_, ?_⟩
  · intro h
    unfold Client.handle
    rw [if_pos h]
  · intro h
    unfold Client.handle
    rw [if_neg (by omega), if_pos h]
  · intro hge hlt hne
    constructor
    · intro hm j hj
      unfold Client.handle
      rw [if_neg (by omega), if_neg hne, if_pos ⟨hge, hlt⟩,
        if_pos (beq_iff_eq.mpr hm), hj]
    · intro hm
      unfold Client.handle
      rw [if_neg (by omega), if_neg hne, if_pos ⟨hge, hlt⟩,
        if_neg (by simp only [beq_iff_eq]; exact hm)]
  · intro h404 hwf
    obtain ⟨m, hm⟩ := clientErrMessage_ok rep.status_code host rep.jsonBody hwf
    refine ⟨m, ?_⟩
    unfold Client.handle
    rw [if_neg (by omega), if_neg (by omega), if_neg (by omega),
      if_pos (show 400 ≤ rep.status_code ∧ rep.status_code < 500 by omega), hm]
    simp only []
    rw [if_pos h404]
  · intro h400 h500 hn1 hn3 hn4 hwf
    obtain ⟨m, hm⟩ := clientErrMessage_ok rep.status_code host rep.jsonBody hwf
    refine ⟨m, ?_⟩
    unfold Client.handle
    rw [if_neg (by omega), if_neg (by omega), if_neg (by omega),
      if_pos ⟨h400, h500⟩, hm]
    simp only []
    rw [if_neg hn4]
  · intro h500 h600 hwf
    obtain ⟨m, hm⟩ := serverErrMessage_ok rep.status_code host rep.jsonBody hwf
    refine ⟨m, ?_⟩
    unfold Client.handle
    rw [if_neg (by omega), if_neg (by omega), if_neg (by omega),
      if_neg (by omega), if_pos ⟨h500, h600⟩, hm]
  · intro st tr u c method data endpoint query hurl hcreds hauth
    have hA : Client.is_authenticated st = true := by
      unfold Client.is_authenticated
      rw [hcreds]
      exact hauth
    unfold Client.request Client.authentication_headers
    rw [hurl]
    simp [hA]

/-- Claim C2 witness. The mapping at concrete responses of each class. -/
theorem C2_response_mapping_witness :
    Client.handle (py "h") ⟨401, [], none, []⟩ =
      .error ⟨.AuthenticationError, .str (py "authentication failed")⟩ ∧
    Client.handle (py "h") ⟨204, [], none, []⟩ = .ok none ∧
    Client.handle (py "h") ⟨200, py "application/json", some (.arr []), []⟩ =
      .ok (some (.json (.arr []))) ∧
    Client.handle (py "h") ⟨200, py "text/plain", none, py "raw"⟩ =
      .ok (some (.bytes (py "raw"))) ∧
    (∃ m, Client.handle (py "h") ⟨404, [], none, []⟩ = .error ⟨.NotFound, m⟩) ∧
    (∃ m, Client.handle (py "h") ⟨422, [], none, []⟩ = .error ⟨.ClientError, m⟩) ∧
    (∃ m, Client.handle (py "h") ⟨503, [], none, []⟩ = .error ⟨.ServerError, m⟩) ∧
    (Client.request
        ⟨some (URL.parse (py "https://h")), none, none,
         some ⟨.str (py "tok"), .null⟩, py "ua"⟩
        (fun _ => ⟨204, [], none, []⟩) (py "GET") none [] [] true).1.length = 1 :=
  ⟨(C2_response_mapping (py "h") ⟨401, [], none, []⟩).1 (Or.inl rfl),
   (C2_response_mapping (py "h") ⟨204, [], none, []⟩).2.1 rfl,
   ((C2_response_mapping (py "h") ⟨200, py "application/json", some (.arr []), []⟩).2.2.1
      (by decide) (by decide) (by decide)).1 (by decide) (.arr []) rfl,
   ((C2_response_mapping (py "h") ⟨200, py "text/plain", none, py "raw"⟩).2.2.1
      (by decide) (by decide) (by decide)).2 (by decide),
   (C2_response_mapping (py "h") ⟨404, [], none, []⟩).2.2.2.1 rfl rfl,
   (C2_response_mapping (py "h") ⟨422, [], none, []⟩).2.2.2.2.1 (by decide)
      (by decide) (by decide) (by decide) (by decide) rfl,
   (C2_response_mapping (py "h") ⟨503, [], none, []⟩).2.2.2.2.2.1 (by decide)
      (by decide) rfl,
   (C2_response_mapping (py "h") ⟨503, [], none, []⟩).2.2.2.2.2.2
      ⟨some (URL.parse (py "https://h")), none, none,
       some ⟨.str (py "tok"), .null⟩, py "ua"⟩
      (fun _ => ⟨204, [], none, []⟩) (URL.parse (py "https://h"))
      ⟨.str (py "tok"), .null⟩ (py "GET") none [] [] rfl rfl (by decide)⟩

/-!
## C3: missing api key material fails locally
-/

/-- Claim C3. A client that holds no credentials and whose client id or
client secret is absent raises `AuthenticationError` on any verb call
requiring authentication, before any transport request is made (the
issued-request trace is empty) and with the client state unchanged. -/
theorem C3_missing_key_fails_before_network (st : ClientState) (tr : Transport)
    (method : PyStr) (data : Option Json) (endpoint : List PyStr)
    (query : List (PyStr × PyStr)) (u : URL)
    (hurl : st.url = some u) (hcreds : st.creds = none)
    (hkey : st.client_id = none ∨ st.client_secret = none) :
    Client.request st tr method data endpoint query true =
      ([], st,
       .error ⟨.AuthenticationError, .str (py "no client id or secret specified")⟩) := by
  have hA : Client.is_authenticated st = false := by
    unfold Client.is_authenticated
    rw [hcreds]
  have hR : Client.is_refreshable st = false := by
    unfold Client.is_refreshable
    rw [hcreds]
  have hcond : (!pyTruthyOptStr st.client_id || !pyTruthyOptStr st.client_secret) = true := by
    rcases hkey with h | h
    · rw [h]
      rfl
    · rw [h]
      simp [pyTruthyOptStr]
  have hAuth : Client.authenticate st tr =
      ([], .error ⟨.AuthenticationError, .str (py "no client id or secret specified")⟩) := by
    unfold Client.authenticate
    rw [if_pos hcond]
  unfold Client.request
  rw [hurl]
  simp only []
  rw [if_pos trivial]
  unfold Client.authentication_headers
  rw [hA, hR, hAuth]
  simp

/-- Claim C3 witness. A concrete client with a secret but no client id. -/
theorem C3_missing_key_fails_before_network_witness :
    Client.request
        ⟨some (URL.parse (py "https://h")), none, some (py "sec"), none, py "ua"⟩
        (fun _ => ⟨204, [], none, []⟩) (py "POST") (some (.obj [])) [py "agents"] [] true =
      ([], ⟨some (URL.parse (py "https://h")), none, some (py "sec"), none, py "ua"⟩,
       .error ⟨.AuthenticationError, .str (py "no client id or secret specified")⟩) :=
  C3_missing_key_fails_before_network
    ⟨some (URL.parse (py "https://h")), none, some (py "sec"), none, py "ua"⟩
    (fun _ => ⟨204, [], none, []⟩) (py "POST") (some (.obj [])) [py "agents"] []
    (URL.parse (py "https://h")) rfl rfl (Or.inl rfl)

/-!
## C1: first authenticated call performs one authenticate exchange
-/

/-- Claim C1. A client with an empty credentials slot, on its first verb call
requiring authentication, issues exactly one authenticate exchange — a POST
to the `authenticate` endpoint with body `{client_id, client_secret}` and
no authorization header — followed by the original request carrying
`Authorization: Bearer <access_token>` with the token returned by that
exchange, and stores the returned credentials.  A subsequent call whose
stored credentials report authenticated issues exactly the one original
request, reusing the stored token, with the state unchanged. -/
theorem C1_first_call_single_authenticate_exchange
    (st : ClientState) (tr : Transport) (u : URL) (cid cs : PyStr)
    (data : Json) (endpoint : List PyStr) (query : List (PyStr × PyStr))
    (at' rt : PyStr)
    (hurl : st.url = some u) (hid : st.client_id = some cid)
    (hsec : st.client_secret = some cs) (hcreds : st.creds = none)
    (hcid : cid ≠ []) (hcs : cs ≠ [])
    (htr : tr ⟨py "POST", Client.make_endpoint u [py "authenticate"] [],
               defaultHeaders st.user_agent,
               some (.obj [(py "client_id", .str cid),
                           (py "client_secret", .str cs)])⟩
         = ⟨200, py "application/json",
            some (.obj [(py "access_token", .str at'),
                        (py "refresh_token", .str rt)]), []⟩) :
    ((Client.post st tr data endpoint query true).1 =
       [⟨py "POST", Client.make_endpoint u [py "authenticate"] [],
         defaultHeaders st.user_agent,
         some (.obj [(py "client_id", .str cid), (py "client_secret", .str cs)])⟩,
        ⟨py "POST", Client.make_endpoint u endpoint query,
         defaultHeaders st.user_agent ++
           [(py "Authorization", py "Bearer " ++ at')],
         some data⟩] ∧
     (Client.post st tr data endpoint query true).2.1.creds =
       some ⟨.str at', .str rt⟩) ∧
    (∀ (st' : ClientState) (c : Credentials) (tr' : Transport) (data' : Json)
       (endpoint' : List PyStr) (query' : List (PyStr × PyStr)) (u' : URL),
       st'.url = some u' → st'.creds = some c → c.is_authenticated = true →
       (Client.post st' tr' data' endpoint' query' true).1 =
         [⟨py "POST", Client.make_endpoint u' endpoint' query',
           defaultHeaders st'.user_agent ++
             [(py "Authorization", py "Bearer " ++ pyJsonStr c.access_token)],
           some data'⟩] ∧
       (Client.post st' tr' data' endpoint' query' true).2.1 = st') := by
  constructor
  · obtain ⟨url0, cid0, cs0, creds0, ua0⟩ := st
    simp only [] at hurl hid hsec hcreds htr ⊢
    subst hurl hid hsec hcreds
    obtain ⟨c1, t1, hcid2⟩ : ∃ c1 t1, cid = c1 :: t1 := by
      cases cid with
      | nil => exact absurd rfl hcid
      | cons c1 t1 => exact ⟨c1, t1, rfl⟩
    obtain ⟨c2, t2, hcs2⟩ : ∃ c2 t2, cs = c2 :: t2 := by
      cases cs with
      | nil => exact absurd rfl hcs
      | cons c2 t2 => exact ⟨c2, t2, rfl⟩
    subst hcid2 hcs2
    have hAuth : Client.authenticate
        ⟨some u, some (c1 :: t1), some (c2 :: t2), none, ua0⟩ tr
        = ([⟨py "POST", Client.make_endpoint u [py "authenticate"] [],
             defaultHeaders ua0,
             some (.obj [(py "client_id", .str (c1 :: t1)),
                         (py "client_secret", .str (c2 :: t2))])⟩],
           .ok ⟨.str at', .str rt⟩) := by
      unfold Client.authenticate
      rw [if_neg (show ¬((!pyTruthyOptStr (some (c1 :: t1))
            || !pyTruthyOptStr (some (c2 :: t2))) = true) from Bool.false_ne_true)]
      dsimp only [Option.getD]
      rw [show Client.request_noauth
            ⟨some u, some (c1 :: t1), some (c2 :: t2), none, ua0⟩ tr (py "POST")
            (some (.obj [(py "client_id", .str (c1 :: t1)),
                         (py "client_secret", .str (c2 :: t2))]))
            [py "authenticate"] []
          = ([⟨py "POST", Client.make_endpoint u [py "authenticate"] [],
               defaultHeaders ua0,
               some (.obj [(py "client_id", .str (c1 :: t1)),
                           (py "client_secret", .str (c2 :: t2))])⟩],
             Client.handle
               (Client.host ⟨some u, some (c1 :: t1), some (c2 :: t2), none, ua0⟩)
               (tr ⟨py "POST", Client.make_endpoint u [py "authenticate"] [],
                    defaultHeaders ua0,
                    some (.obj [(py "client_id", .str (c1 :: t1)),
                                (py "client_secret", .str (c2 :: t2))])⟩))
          from rfl]
      rw [htr]
      rfl
    have hAH : Client.authentication_headers
        ⟨some u, some (c1 :: t1), some (c2 :: t2), none, ua0⟩ tr
        = ([⟨py "POST", Client.make_endpoint u [py "authenticate"] [],
             defaultHeaders ua0,
             some (.obj [(py "client_id", .str (c1 :: t1)),
                         (py "client_secret", .str (c2 :: t2))])⟩],
           ⟨some u, some (c1 :: t1), some (c2 :: t2),
            some ⟨.str at', .str rt⟩, ua0⟩,
           .ok [(py "Authorization", py "Bearer " ++ at')]) := by
      unfold Client.authentication_headers
      rw [hAuth]
      rfl
    have hfinal : Client.post
        ⟨some u, some (c1 :: t1), some (c2 :: t2), none, ua0⟩ tr
        data endpoint query true
        = ([⟨py "POST", Client.make_endpoint u [py "authenticate"] [],
             defaultHeaders ua0,
             some (.obj [(py "client_id", .str (c1 :: t1)),
                         (py "client_secret", .str (c2 :: t2))])⟩,
            ⟨py "POST", Client.make_endpoint u endpoint query,
             defaultHeaders ua0 ++ [(py "Authorization", py "Bearer " ++ at')],
             some data⟩],
           ⟨some u, some (c1 :: t1), some (c2 :: t2),
            some ⟨.str at', .str rt⟩, ua0⟩,
           Client.handle
             (Client.host ⟨some u, some (c1 :: t1), some (c2 :: t2),
                           some ⟨.str at', .str rt⟩, ua0⟩)
             (tr ⟨py "POST", Client.make_endpoint u endpoint query,
                  defaultHeaders ua0 ++ [(py "Authorization", py "Bearer " ++ at')],
                  some data⟩)) := by
      unfold Client.post Client.request
      rw [hAH]
      rfl
    exact ⟨by rw [hfinal], by rw [hfinal]⟩
  · intro st' c tr' data' endpoint' query' u' hurl' hcreds' hauthc
    obtain ⟨url0, cid0, cs0, creds0, ua1⟩ := st'
    simp only [] at hurl' hcreds' ⊢
    subst hurl' hcreds'
    have hAH2 : Client.authentication_headers ⟨some u', cid0, cs0, some c, ua1⟩ tr'
        = ([], ⟨some u', cid0, cs0, some c, ua1⟩,
           .ok [(py "Authorization", py "Bearer " ++ pyJsonStr c.access_token)]) := by
      unfold Client.authentication_headers
      rw [show Client.is_authenticated ⟨some u', cid0, cs0, some c, ua1⟩ = true
          from hauthc]
      rfl
    have hfinal2 : Client.post ⟨some u', cid0, cs0, some c, ua1⟩ tr'
        data' endpoint' query' true
        = ([⟨py "POST", Client.make_endpoint u' endpoint' query',
             defaultHeaders ua1 ++
               [(py "Authorization", py "Bearer " ++ pyJsonStr c.access_token)],
             some data'⟩],
           ⟨some u', cid0, cs0, some c, ua1⟩,
           Client.handle (Client.host ⟨some u', cid0, cs0, some c, ua1⟩)
             (tr' ⟨py "POST", Client.make_endpoint u' endpoint' query',
                   defaultHeaders ua1 ++
                     [(py "Authorization", py "Bearer " ++ pyJsonStr c.access_token)],
                   some data'⟩)) := by
      unfold Client.post Client.request
      rw [hAH2]
      rfl
    exact ⟨by rw [hfinal2], by rw [hfinal2]⟩

/-- Claim C1 witness. The test scenario: a localhost client with no stored
credentials POSTs to `authrequired`; the trace is exactly the authenticate
exchange followed by the original request with `Authorization: Bearer
access`, and the returned tokens are stored. -/
theorem C1_first_call_single_authenticate_exchange_witness :
    (Client.post
        ⟨some (URL.parse (py "http://localhost:8000")), some (py "id"),
         some (py "secret"), none, py "ua"⟩
        (fun req =>
          if req.url.path == py "/v1/authenticate" then
            ⟨200, py "application/json",
             some (.obj [(py "access_token", .str (py "access")),
                         (py "refresh_token", .str (py "refresh"))]), []⟩
          else ⟨200, py "application/json", some (.arr []), []⟩)
        (.obj []) [py "authrequired"] [] true).1 =
      [⟨py "POST",
        Client.make_endpoint (URL.parse (py "http://localhost:8000"))
          [py "authenticate"] [],
        defaultHeaders (py "ua"),
        some (.obj [(py "client_id", .str (py "id")),
                    (py "client_secret", .str (py "secret"))])⟩,
       ⟨py "POST",
        Client.make_endpoint (URL.parse (py "http://localhost:8000"))
          [py "authrequired"] [],
        defaultHeaders (py "ua") ++
          [(py "Authorization", py "Bearer " ++ py "access")],
        some (.obj [])⟩] ∧
    (Client.post
        ⟨some (URL.parse (py "http://localhost:8000")), some (py "id"),
         some (py "secret"), none, py "ua"⟩
        (fun req =>
          if req.url.path == py "/v1/authenticate" then
            ⟨200, py "application/json",
             some (.obj [(py "access_token", .str (py "access")),
                         (py "refresh_token", .str (py "refresh"))]), []⟩
          else ⟨200, py "application/json", some (.arr []), []⟩)
        (.obj []) [py "authrequired"] [] true).2.1.creds =
      some ⟨.str (py "access"), .str (py "refresh")⟩ :=
  (C1_first_call_single_authenticate_exchange
    ⟨some (URL.parse (py "http://localhost:8000")), some (py "id"),
     some (py "secret"), none, py "ua"⟩
    (fun req =>
      if req.url.path == py "/v1/authenticate" then
        ⟨200, py "application/json",
         some (.obj [(py "access_token", .str (py "access")),
                     (py "refresh_token", .str (py "refresh"))]), []⟩
      else ⟨200, py "application/json", some (.arr []), []⟩)
    (URL.parse (py "http://localhost:8000")) (py "id") (py "secret")
    (.obj []) [py "authrequired"] [] (py "access") (py "refresh")
    rfl rfl rfl rfl (by decide) (by decide) rfl).1

/-!
## C6: query merge semantics

Lemmas about the insertion-ordered dict update (`dictUpdate`) that models
Python's `dict.update` inside `resolve`.
-/

/-- Unfolding `lookupKey` over a cons cell. -/
theorem lookupKey_cons {α : Type} (p : PyStr × α) (rest : List (PyStr × α))
    (k : PyStr) :
    lookupKey (p :: rest) k =
      if p.1 == k then some p.2 else lookupKey rest k := by
  unfold lookupKey
  cases hp : p.1 == k with
  | true => simp [List.find?_cons, hp]
  | false => simp [List.find?_cons, hp]

/-- A key test over pairs equals membership of the key list. -/
theorem any_key_eq_mem {α : Type} (d : List (PyStr × α)) (k : PyStr) :
    d.any (fun p => p.1 == k) = true ↔ k ∈ d.map Prod.fst := by
  rw [List.any_eq_true]
  constructor
  · rintro ⟨p, hp, he⟩
    exact List.mem_map.mpr ⟨p, hp, (beq_iff_eq.mp he).symm ▸ rfl⟩
  · intro hm
    obtain ⟨p, hp, he⟩ := List.mem_map.mp hm
    exact ⟨p, hp, beq_iff_eq.mpr he⟩

/-- Updating an existing key keeps the key sequence. -/
theorem dictUpdate1_keys_mem {α : Type} (d : List (PyStr × α)) (kv : PyStr × α)
    (h : d.any (fun p => p.1 == kv.1) = true) :
    (dictUpdate1 d kv).map Prod.fst = d.map Prod.fst := by
  unfold dictUpdate1
  rw [if_pos h, List.map_map]
  apply List.map_congr_left
  intro p _
  by_cases hp : p.1 == kv.1
  · simp only [Function.comp_apply, if_pos hp]
  · simp only [Function.comp_apply, if_neg hp]

/-- Updating a fresh key appends the pair. -/
theorem dictUpdate1_keys_new {α : Type} (d : List (PyStr × α)) (kv : PyStr × α)
    (h : d.any (fun p => p.1 == kv.1) = false) :
    dictUpdate1 d kv = d ++ [kv] := by
  unfold dictUpdate1
  rw [if_neg (by simp [h])]

/-- Looking up an in-place-overridden key yields the new value. -/
theorem lookupKey_mapUpdate_same {α : Type} (d : List (PyStr × α))
    (kk : PyStr) (v : α) (h : d.any (fun p => p.1 == kk) = true) :
    lookupKey (d.map (fun p => if p.1 == kk then (p.1, v) else p)) kk = some v := by
  induction d with
  | nil => simp at h
  | cons p rest ih =>
    rw [List.map_cons]
    by_cases hp : p.1 == kk
    · rw [if_pos hp]
      simp [lookupKey_cons, hp]
    · rw [if_neg hp, lookupKey_cons, if_neg hp]
      have hpf : (p.1 == kk) = false := by
        cases hb : p.1 == kk with
        | false => rfl
        | true => exact absurd hb hp
      have hh := h
      rw [List.any_cons, hpf, Bool.false_or] at hh
      exact ih hh

/-- An in-place override leaves other keys' lookups unchanged. -/
theorem lookupKey_mapUpdate_other {α : Type} (d : List (PyStr × α))
    (kk : PyStr) (v : α) (k : PyStr) (hk : k ≠ kk) :
    lookupKey (d.map (fun p => if p.1 == kk then (p.1, v) else p)) k
      = lookupKey d k := by
  induction d with
  | nil => rfl
  | cons p rest ih =>
    rw [List.map_cons, lookupKey_cons, lookupKey_cons]
    have hfst : (if p.1 == kk then (p.1, v) else p).1 = p.1 := by
      by_cases hp : p.1 == kk
      · rw [if_pos hp]
      · rw [if_neg hp]
    rw [hfst]
    by_cases hpk : p.1 == k
    · rw [if_pos hpk, if_pos hpk]
      have hne : (p.1 == kk) = false := by
        cases hq : p.1 == kk with
        | false => rfl
        | true =>
          exact absurd ((beq_iff_eq.mp hpk).symm.trans (beq_iff_eq.mp hq)) hk
      rw [if_neg (by simp [hne])]
    · rw [if_neg hpk, if_neg hpk]
      exact ih

/-- Appending a fresh pair makes its key found. -/
theorem lookupKey_append_same {α : Type} (d : List (PyStr × α))
    (kv : PyStr × α) (h : d.any (fun p => p.1 == kv.1) = false) :
    lookupKey (d ++ [kv]) kv.1 = some kv.2 := by
  induction d with
  | nil => simp [lookupKey_cons]
  | cons p rest ih =>
    rw [List.cons_append, lookupKey_cons]
    have hsplit := h
    rw [List.any_cons] at hsplit
    obtain ⟨hp, hrest⟩ := Bool.or_eq_false_iff.mp hsplit
    rw [if_neg (by rw [hp]; exact Bool.false_ne_true)]
    exact ih hrest

/-- Appending a pair leaves other keys' lookups unchanged. -/
theorem lookupKey_append_other {α : Type} (d : List (PyStr × α))
    (kv : PyStr × α) (k : PyStr) (hk : k ≠ kv.1) :
    lookupKey (d ++ [kv]) k = lookupKey d k := by
  induction d with
  | nil =>
    show lookupKey [kv] k = lookupKey [] k
    rw [lookupKey_cons]
    have : (kv.1 == k) = false := by
      cases hq : kv.1 == k with
      | false => rfl
      | true => exact absurd (beq_iff_eq.mp hq).symm hk
    rw [if_neg (by simp [this])]
  | cons p rest ih =>
    rw [List.cons_append, lookupKey_cons, lookupKey_cons]
    by_cases hpk : p.1 == k
    · rw [if_pos hpk, if_pos hpk]
    · rw [if_neg hpk, if_neg hpk]
      exact ih

/-- After one update step the updated key holds the new value. -/
theorem lookupKey_dictUpdate1_same {α : Type} (d : List (PyStr × α))
    (kv : PyStr × α) :
    lookupKey (dictUpdate1 d kv) kv.1 = some kv.2 := by
  cases hmem : d.any (fun p => p.1 == kv.1) with
  | true =>
    unfold dictUpdate1
    rw [if_pos hmem]
    exact lookupKey_mapUpdate_same d kv.1 kv.2 hmem
  | false =>
    rw [dictUpdate1_keys_new d kv hmem]
    exact lookupKey_append_same d kv hmem

/-- One update step leaves other keys' lookups unchanged. -/
theorem lookupKey_dictUpdate1_other {α : Type} (d : List (PyStr × α))
    (kv : PyStr × α) (k : PyStr) (hk : k ≠ kv.1) :
    lookupKey (dictUpdate1 d kv) k = lookupKey d k := by
  cases hmem : d.any (fun p => p.1 == kv.1) with
  | true =>
    unfold dictUpdate1
    rw [if_pos hmem]
    exact lookupKey_mapUpdate_other d kv.1 kv.2 k hk
  | false =>
    rw [dictUpdate1_keys_new d kv hmem]
    exact lookupKey_append_other d kv k hk

/-- Keys after a full `dict.update`: the existing keys first, in their
original order, then the genuinely new keys in update order. -/
theorem dictUpdate_keys {α : Type} (d q : List (PyStr × α))
    (hq : (q.map Prod.fst).Nodup) :
    (dictUpdate d q).map Prod.fst =
      d.map Prod.fst ++
        (q.map Prod.fst).filter (fun k => decide (k ∉ d.map Prod.fst)) := by
  induction q generalizing d with
  | nil =>
    simp only [dictUpdate, List.foldl_nil, List.map_nil, List.filter_nil,
      List.append_nil]
  | cons kv rest ih =>
    simp only [List.map_cons, List.nodup_cons] at hq
    obtain ⟨hknotin, hnd⟩ := hq
    show (dictUpdate (dictUpdate1 d kv) rest).map Prod.fst = _
    rw [List.map_cons]
    cases hmem : d.any (fun p => p.1 == kv.1) with
    | true =>
      have hkeys : (dictUpdate1 d kv).map Prod.fst = d.map Prod.fst :=
        dictUpdate1_keys_mem d kv hmem
      rw [ih (dictUpdate1 d kv) hnd, hkeys]
      have hkin : kv.1 ∈ d.map Prod.fst := (any_key_eq_mem d kv.1).mp hmem
      rw [List.filter_cons, if_neg (by simp [hkin])]
    | false =>
      have happend := dictUpdate1_keys_new d kv hmem
      rw [ih (dictUpdate1 d kv) hnd, happend]
      have hknotin' : kv.1 ∉ d.map Prod.fst := by
        intro hc
        exact absurd ((any_key_eq_mem d kv.1).mpr hc) (by simp [hmem])
      rw [List.filter_cons, if_pos (by simp [hknotin']), List.map_append,
        List.append_assoc]
      simp only [List.map_cons, List.map_nil, List.singleton_append]
      congr 1
      congr 1
      apply List.filter_congr
      intro x hx
      have hxk : x ≠ kv.1 := fun he => hknotin (he ▸ hx)
      apply decide_eq_decide.mpr
      constructor
      · intro hni hmemd
        exact hni (List.mem_append.mpr (Or.inl hmemd))
      · intro hni hmemapp
        rcases List.mem_append.mp hmemapp with hmd | hms
        · exact hni hmd
        · exact hxk (List.mem_singleton.mp hms)

/-- A full update leaves keys outside the update mapping unchanged. -/
theorem lookupKey_dictUpdate_not_mem {α : Type} (d q : List (PyStr × α))
    (k : PyStr) (hk : k ∉ q.map Prod.fst) :
    lookupKey (dictUpdate d q) k = lookupKey d k := by
  induction q generalizing d with
  | nil => rfl
  | cons kv rest ih =>
    simp only [List.map_cons, List.mem_cons] at hk
    push_neg at hk
    show lookupKey (dictUpdate (dictUpdate1 d kv) rest) k = _
    rw [ih (dictUpdate1 d kv) hk.2,
      lookupKey_dictUpdate1_other d kv k hk.1]

/-- Every key of the update mapping holds its supplied value afterwards. -/
theorem lookupKey_dictUpdate_mem {α : Type} (d q : List (PyStr × α))
    (hq : (q.map Prod.fst).Nodup) (k : PyStr) (v : α) (hkv : (k, v) ∈ q) :
    lookupKey (dictUpdate d q) k = some v := by
  induction q generalizing d with
  | nil => simp at hkv
  | cons kv rest ih =>
    simp only [List.map_cons, List.nodup_cons] at hq
    rcases List.mem_cons.mp hkv with heq | hmem
    · have hkn : k ∉ rest.map Prod.fst := by
        rw [show k = kv.1 from by rw [← heq]]
        exact hq.1
      show lookupKey (dictUpdate (dictUpdate1 d kv) rest) k = some v
      rw [lookupKey_dictUpdate_not_mem (dictUpdate1 d kv) rest k hkn]
      rw [show k = kv.1 from by rw [← heq], show v = kv.2 from by rw [← heq]]
      exact lookupKey_dictUpdate1_same d kv
    · exact ih (dictUpdate1 d kv) hq.2 hmem

/-- Claim C6. In the query produced by `URL.resolve`, each supplied key
overrides a same-named existing key in its original position, all other
existing keys keep their values, and the key order is the existing keys
first in original order followed by the genuinely new keys in supplied
order; the resolved URL's query string is the `doseq` encoding of that
merged mapping.  The claim's example: base query `ordering=created`
merged with `include=archives` yields `ordering=created&include=archives`. -/
theorem C6_resolve_query_merge (u : URL) (endpoint : List PyStr)
    (query : List (PyStr × PyStr)) (hq : (query.map Prod.fst).Nodup) :
    ((mergedQuery u query).map Prod.fst =
       (URL.parse_query u).map Prod.fst ++
         (query.map Prod.fst).filter
           (fun k => decide (k ∉ (URL.parse_query u).map Prod.fst)) ∧
     (∀ k v, (k, v) ∈ query →
        lookupKey (mergedQuery u query) k = some (QVal.one v)) ∧
     (∀ k, k ∉ query.map Prod.fst →
        lookupKey (mergedQuery u query) k =
          lookupKey ((URL.parse_query u).map (fun p => (p.1, QVal.many p.2))) k) ∧
     (u.resolve endpoint query).query =
       (if !(mergedQuery u query).isEmpty then urlencodeDoseq (mergedQuery u query)
        else [])) ∧
    ((URL.parse (py "https://guidelight.dev?ordering=created")).resolve
        [py "v1", py "agents"] [(py "include", py "archives")]).query =
      py "ordering=created&include=archives" := by
  have hkq : ((query.map (fun p => (p.1, QVal.one p.2))).map Prod.fst)
      = query.map Prod.fst := by
    rw [List.map_map]
    apply List.map_congr_left
    intro p _
    rfl
  have hkE : (((URL.parse_query u).map (fun p => (p.1, QVal.many p.2))).map Prod.fst)
      = (URL.parse_query u).map Prod.fst := by
    rw [List.map_map]
    apply List.map_congr_left
    intro p _
    rfl
  refine ⟨⟨?_, ?_, ?_, rfl⟩, by decide⟩
  · show (dictUpdate _ _).map Prod.fst = _
    rw [dictUpdate_keys _ _ (by rw [hkq]; exact hq), hkq, hkE]
  · intro k v hkv
    show lookupKey (dictUpdate _ _) k = _
    exact lookupKey_dictUpdate_mem _ _ (by rw [hkq]; exact hq) k (QVal.one v)
      (List.mem_map.mpr ⟨(k, v), hkv, rfl⟩)
  · intro k hk
    show lookupKey (dictUpdate _ _) k = _
    exact lookupKey_dictUpdate_not_mem _ _ k (by rw [hkq]; exact hk)

/-- Claim C6 witness. The claim's concrete merge example. -/
theorem C6_resolve_query_merge_witness :
    ((URL.parse (py "https://guidelight.dev?ordering=created")).resolve
        [py "v1", py "agents"] [(py "include", py "archives")]).query =
      py "ordering=created&include=archives" :=
  (C6_resolve_query_merge (URL.parse (py "https://guidelight.dev?ordering=created"))
    [py "v1", py "agents"] [(py "include", py "archives")] (by decide)).2

/-!
## C9: parse / serialize round trip
-/

/-- Fact: `splitFirst` splits at the first occurrence of the character. -/
theorem splitFirst_append (c : Char) (a b : PyStr) (h : c ∉ a) :
    splitFirst c (a ++ c :: b) = some (a, b) := by
  induction a with
  | nil => simp [splitFirst]
  | cons x t ih =>
    have hx : x ≠ c := fun he => h (he ▸ List.mem_cons_self x t)
    show splitFirst c (x :: (t ++ c :: b)) = _
    unfold splitFirst
    rw [if_neg hx, ih (fun hm => h (List.mem_cons_of_mem x hm))]
    rfl

/-- Fact: `splitFirst` finds nothing when the character is absent. -/
theorem splitFirst_none (c : Char) (l : PyStr) (h : c ∉ l) :
    splitFirst c l = none := by
  induction l with
  | nil => rfl
  | cons x t ih =>
    have hx : x ≠ c := fun he => h (he ▸ List.mem_cons_self x t)
    unfold splitFirst
    rw [if_neg hx, ih (fun hm => h (List.mem_cons_of_mem x hm))]
    rfl

/-- Fact: `takeWhile`/`dropWhile` split an append at the first failing head. -/
theorem takeWhile_dropWhile_append (p : Char → Bool) (a b : PyStr)
    (ha : ∀ x ∈ a, p x = true)
    (hb : ∀ x t, b = x :: t → p x = false) :
    (a ++ b).takeWhile p = a ∧ (a ++ b).dropWhile p = b := by
  induction a with
  | nil =>
    simp only [List.nil_append]
    cases b with
    | nil => exact ⟨rfl, rfl⟩
    | cons x t =>
      have hx := hb x t rfl
      rw [List.takeWhile_cons, List.dropWhile_cons, hx]
      exact ⟨rfl, rfl⟩
  | cons x t ih =>
    have hx := ha x (List.mem_cons_self x t)
    obtain ⟨ih1, ih2⟩ := ih (fun y hy => ha y (List.mem_cons_of_mem x hy))
    rw [List.cons_append, List.takeWhile_cons, List.dropWhile_cons, hx]
    simp only [if_true]
    exact ⟨by rw [ih1], by rw [ih2]⟩

/-- Parsing a rendered valid URL recovers its components exactly. -/
theorem urlparse_renderURL (scheme netloc path query fragment : PyStr)
    (hs1 : scheme ≠ []) (hs2 : (scheme.headD ' ').isAlpha = true)
    (hs3 : scheme.all isSchemeChar = true) (hs4 : pyToLower scheme = scheme)
    (_hn1 : netloc ≠ []) (hn2 : ∀ c ∈ netloc, c ≠ '/' ∧ c ≠ '?' ∧ c ≠ '#')
    (hp1 : path = [] ∨ startsSlash path = true)
    (hp2 : ∀ c ∈ path, c ≠ '?' ∧ c ≠ '#' ∧ c ≠ ';')
    (hq : ∀ c ∈ query, c ≠ '#') :
    URL.parse (renderURL scheme netloc path query fragment)
      = ⟨scheme, netloc, path, [], query, fragment⟩ := by
  have hscolon : ':' ∉ scheme := by
    intro hc
    have hall := List.all_eq_true.mp hs3 ':' hc
    exact absurd hall (by decide)
  have hie : scheme.isEmpty = false := by
    cases scheme with
    | nil => exact absurd rfl hs1
    | cons a b => rfl
  have hguard : ((!scheme.isEmpty && (scheme.headD ' ').isAlpha)
      && scheme.all isSchemeChar) = true := by
    rw [hie, hs2, hs3]
    rfl
  have hnq_path : '?' ∉ path := fun hc => (hp2 '?' hc).1 rfl
  have hns_path : '#' ∉ path := fun hc => (hp2 '#' hc).2.1 rfl
  have hbhead : ∀ x t,
      (path ++ ((if query.isEmpty then [] else '?' :: query) ++
        (if fragment.isEmpty then [] else '#' :: fragment))) = x :: t →
      (!(x == '/' || x == '?' || x == '#')) = false := by
    intro x t hxt
    rcases hp1 with hpe | hps
    · subst hpe
      rw [List.nil_append] at hxt
      cases query with
      | cons q0 qt =>
        rw [if_neg (show ¬((q0 :: qt).isEmpty = true) from Bool.false_ne_true),
          List.cons_append] at hxt
        injection hxt with h1 _
        rw [← h1]
        decide
      | nil =>
        rw [if_pos (show ([] : PyStr).isEmpty = true from rfl),
          List.nil_append] at hxt
        cases fragment with
        | nil =>
          rw [if_pos (show ([] : PyStr).isEmpty = true from rfl)] at hxt
          cases hxt
        | cons f0 ft =>
          rw [if_neg (show ¬((f0 :: ft).isEmpty = true) from Bool.false_ne_true)]
            at hxt
          injection hxt with h1 _
          rw [← h1]
          decide
    · cases path with
      | nil => cases hps
      | cons p0 pt =>
        have hp0 : p0 = '/' := by
          have := beq_iff_eq.mp hps
          injection this with h
        rw [List.cons_append] at hxt
        injection hxt with h1 _
        rw [← h1, hp0]
        decide
  have hsplit : urlsplitPy (renderURL scheme netloc path query fragment) [] true
      = (scheme, netloc, path, query, fragment) := by
    unfold urlsplitPy renderURL splitnetloc
    simp only [List.append_assoc, List.cons_append]
    rw [splitFirst_append ':' scheme _ hscolon]
    simp only []
    rw [if_pos hguard, hs4]
    simp only [show ∀ l : PyStr, List.isPrefixOf (py "//") ('/' :: '/' :: l) = true
      from fun l => by simp [List.isPrefixOf]]
    rw [if_pos trivial]
    simp only [show ∀ l : PyStr, List.drop 2 ('/' :: '/' :: l) = l from fun l => rfl]
    obtain ⟨htake, hdrop⟩ := takeWhile_dropWhile_append
      (fun c => !(c == '/' || c == '?' || c == '#')) netloc
      (path ++ ((if query.isEmpty then [] else '?' :: query) ++
        (if fragment.isEmpty then [] else '#' :: fragment)))
      (fun x hx => by
        obtain ⟨h1, h2, h3⟩ := hn2 x hx
        simp [h1, h2, h3])
      hbhead
    rw [htake, hdrop]
    rw [if_pos trivial]
    cases fragment with
    | nil =>
      rw [if_pos (show ([] : PyStr).isEmpty = true from rfl), List.append_nil]
      cases query with
      | nil =>
        rw [if_pos (show ([] : PyStr).isEmpty = true from rfl), List.append_nil,
          splitFirst_none '#' path hns_path]
        simp only []
        rw [splitFirst_none '?' path hnq_path]
      | cons q0 qt =>
        rw [if_neg (show ¬((q0 :: qt).isEmpty = true) from Bool.false_ne_true)]
        have hnsharp : '#' ∉ path ++ '?' :: (q0 :: qt) := by
          intro hc
          rcases List.mem_append.mp hc with hm | hm
          · exact hns_path hm
          · rcases List.mem_cons.mp hm with he | hm2
            · cases he
            · exact absurd rfl (hq '#' hm2)
        rw [splitFirst_none '#' (path ++ '?' :: (q0 :: qt)) hnsharp]
        simp only []
        rw [splitFirst_append '?' path (q0 :: qt) hnq_path]
    | cons f0 ft =>
      rw [if_neg (show ¬((f0 :: ft).isEmpty = true) from Bool.false_ne_true)]
      cases query with
      | nil =>
        rw [if_pos (show ([] : PyStr).isEmpty = true from rfl), List.nil_append,
          splitFirst_append '#' path (f0 :: ft) hns_path]
        simp only []
        rw [splitFirst_none '?' path hnq_path]
      | cons q0 qt =>
        rw [if_neg (show ¬((q0 :: qt).isEmpty = true) from Bool.false_ne_true)]
        have hnsharp : '#' ∉ path ++ '?' :: (q0 :: qt) := by
          intro hc
          rcases List.mem_append.mp hc with hm | hm
          · exact hns_path hm
          · rcases List.mem_cons.mp hm with he | hm2
            · cases he
            · exact absurd rfl (hq '#' hm2)
        rw [← List.append_assoc path ('?' :: q0 :: qt) ('#' :: f0 :: ft)]
        rw [splitFirst_append '#' (path ++ '?' :: q0 :: qt) (f0 :: ft) hnsharp]
        simp only []
        rw [splitFirst_append '?' path (q0 :: qt) hnq_path]
  have hpc : path.contains ';' = false := by
    cases hc : path.contains ';' with
    | false => rfl
    | true =>
      have hmem : ';' ∈ path := List.mem_of_elem_eq_true hc
      exact absurd rfl (hp2 ';' hmem).2.2
  unfold URL.parse urlparsePy
  rw [hsplit]
  simp only []
  rw [hpc, Bool.and_false, if_neg Bool.false_ne_true]

/-- Serializing a parsed valid URL reassembles the conventional syntax. -/
theorem urlunparse_fields (scheme netloc path query fragment : PyStr)
    (hs1 : scheme ≠ []) (hn1 : netloc ≠ [])
    (hp1 : path = [] ∨ startsSlash path = true) :
    urlunparsePy ⟨scheme, netloc, path, [], query, fragment⟩
      = renderURL scheme netloc path query fragment := by
  have hne : netloc.isEmpty = false := by
    cases netloc with
    | nil => exact absurd rfl hn1
    | cons a b => rfl
  have hse : scheme.isEmpty = false := by
    cases scheme with
    | nil => exact absurd rfl hs1
    | cons a b => rfl
  unfold urlunparsePy renderURL
  simp only []
  rw [if_neg (show ¬((!List.isEmpty ([] : PyStr)) = true) from by decide)]
  rw [if_pos (show (!netloc.isEmpty || _) = true from by rw [hne]; rfl)]
  have hinner : (if !path.isEmpty && !startsSlash path then '/' :: path else path)
      = path := by
    rcases hp1 with hpe | hps
    · subst hpe
      rfl
    · rw [hps]
      rw [if_neg (show ¬((!path.isEmpty && !true) = true) from by
        rw [show (!true) = false from rfl, Bool.and_false]
        exact Bool.false_ne_true)]
  rw [hinner]
  rw [if_pos (show (!scheme.isEmpty) = true from by rw [hse]; rfl)]
  cases query with
  | nil =>
    rw [if_neg (show ¬((!List.isEmpty ([] : PyStr)) = true) from by decide),
      if_pos (show List.isEmpty ([] : PyStr) = true from rfl)]
    cases fragment with
    | nil =>
      rw [if_neg (show ¬((!List.isEmpty ([] : PyStr)) = true) from by decide),
        if_pos (show List.isEmpty ([] : PyStr) = true from rfl)]
      simp [List.append_assoc]
    | cons f0 ft =>
      rw [if_pos (show (!List.isEmpty (f0 :: ft)) = true from rfl),
        if_neg (show ¬(List.isEmpty (f0 :: ft) = true) from Bool.false_ne_true)]
      simp [List.append_assoc]
  | cons q0 qt =>
    rw [if_pos (show (!List.isEmpty (q0 :: qt)) = true from rfl),
      if_neg (show ¬(List.isEmpty (q0 :: qt) = true) from Bool.false_ne_true)]
    cases fragment with
    | nil =>
      rw [if_neg (show ¬((!List.isEmpty ([] : PyStr)) = true) from by decide),
        if_pos (show List.isEmpty ([] : PyStr) = true from rfl)]
      simp [List.append_assoc]
    | cons f0 ft =>
      rw [if_pos (show (!List.isEmpty (f0 :: ft)) = true from rfl),
        if_neg (show ¬(List.isEmpty (f0 :: ft) = true) from Bool.false_ne_true)]
      simp [List.append_assoc]

/-- Claim C9. For every valid URL string, parse followed by serialization
returns the string exactly, and the six parsed fields are preserved by
the round trip. -/
theorem C9_parse_serialize_roundtrip (s : PyStr) (h : IsValidURLString s) :
    urlunparsePy (URL.parse s) = s ∧
    URL.parse (urlunparsePy (URL.parse s)) = URL.parse s := by
  obtain ⟨sch, n, p, q, f, hs, h1, h2, h3, h4, h5, h6, h7, h8, h9⟩ := h
  subst hs
  have hp := urlparse_renderURL sch n p q f h1 h2 h3 h4 h5 h6 h7 h8 h9
  rw [hp, urlunparse_fields sch n p q f h1 h5 h7]
  exact ⟨rfl, hp⟩

/-- Claim C9 witness. A concrete URL with all six components round-trips. -/
theorem C9_parse_serialize_roundtrip_witness :
    urlunparsePy (URL.parse (py "https://guidelight.dev/v1/agents?ordering=created#top"))
      = py "https://guidelight.dev/v1/agents?ordering=created#top" :=
  (C9_parse_serialize_roundtrip
    (py "https://guidelight.dev/v1/agents?ordering=created#top")
    ⟨py "https", py "guidelight.dev", py "/v1/agents", py "ordering=created",
     py "top", by decide, by decide, by decide, by decide, by decide,
     by decide, by decide, by decide, by decide, by decide⟩).1
